import Mathlib

-- Verification development for the SGCL scene-graph captioning model
-- (models.py and utils.py). Real-valued tensor arithmetic is modelled over
-- the rationals. The learned linear layers and recurrent cells are modelled
-- as function-valued fields of the module structures (a trained layer is an
-- arbitrary function of its input), and the softmax exponential is an
-- explicit parameter expf of every forward function; theorems that depend
-- on softmax normalisation assume expf is positive, which holds for the
-- real exponential.

set_option maxHeartbeats 1000000

abbrev QVec := List ℚ

-- torch.relu on one coordinate
def relu (x : ℚ) : ℚ := max x 0

-- elementwise addition; the shorter vector is padded with zeros
-- (tensors in the source always have equal shapes here)
def vaddPad : QVec → QVec → QVec
  | [], w => w
  | v, [] => v
  | x :: v, y :: w => (x + y) :: vaddPad v w

def smulV (a : ℚ) (v : QVec) : QVec := v.map (fun x => a * x)

def vsumQ (v : QVec) : ℚ := v.sum

def zeroV (n : ℕ) : QVec := List.replicate n 0

-- (weights * vectors).sum(dim=0): attention-weighted sum of a key set
def wsum (ws : List ℚ) (vs : List QVec) : QVec :=
  (List.zipWith smulV ws vs).foldr vaddPad []

-- tensor.mean(0) over a stack of equal-length rows
def vecMeanL (vs : List QVec) : QVec :=
  (vs.foldr vaddPad []).map (fun x => x / (vs.length : ℚ))

-- boolean_mask.sum().item()
def countTrue (m : List Bool) : ℕ := m.countP (fun b => b)

-- tensor[mask] : boolean mask row selection
def maskSelect {α : Type} (l : List α) (m : List Bool) : List α :=
  (List.zip l m).filterMap (fun p => if p.2 then some p.1 else none)

-- exp on scores extended with negative infinity (None); exp(-inf) = 0
def expO (expf : ℚ → ℚ) : Option ℚ → ℚ
  | none => 0
  | some x => expf x

-- torch.softmax over a score vector in which masked-out entries have been
-- filled with negative infinity (modelled as none)
def softmaxMasked (expf : ℚ → ℚ) (scores : List (Option ℚ)) : List ℚ :=
  let s := (scores.map (expO expf)).sum
  scores.map (fun x => expO expf x / s)

-- models.py, class Attention: the learned layers features_att, decoder_att,
-- full_att (score dimension 1, hence codomain one rational) and the dropout
-- layer are function-valued fields
structure Attention where
  features_att : QVec → QVec
  decoder_att : QVec → QVec
  full_att : QVec → ℚ
  dropout : QVec → QVec

-- models.py lines 31-47, Attention.forward: score each key, fill scores of
-- masked-out keys with -inf, softmax, and weight-and-sum the original keys
def Attention.forward (expf : ℚ → ℚ) (A : Attention) (image_features : List QVec)
    (decoder_hidden : QVec) (mask : Option (List Bool)) : QVec :=
  let att2 := A.decoder_att decoder_hidden
  let att := image_features.map
    (fun k => A.full_att (A.dropout ((vaddPad (A.features_att k) att2).map relu)))
  let attM : List (Option ℚ) :=
    match mask with
    | none => att.map some
    | some m => List.zipWith (fun s b => if b then some s else none) att m
  let alpha := softmaxMasked expf attM
  wsum alpha image_features

-- index lookup inside zipWith
theorem getq_zipWith {α β γ : Type} (f : α → β → γ) :
    ∀ (l : List α) (m : List β) (i : ℕ),
      (List.zipWith f l m).get? i =
        match l.get? i, m.get? i with
        | some a, some b => some (f a b)
        | _, _ => none := by
  intro l
  induction l with
  | nil => intro m i; cases m <;> cases i <;> rfl
  | cons a l ih =>
    intro m i
    cases m with
    | nil =>
      cases i with
      | zero => rfl
      | succ i =>
        cases h : (a :: l).get? (i + 1) <;> simp [h, List.zipWith_nil_right]
    | cons b m =>
      cases i with
      | zero => rfl
      | succ i => simpa using ih m i

-- the sum of exponentials of a score list whose only finite entry sits at
-- index j equals the exponential of that entry
theorem sumExp_onehot (f : ℚ → ℚ) :
    ∀ (l : List (Option ℚ)) (j : ℕ) (x : ℚ),
      l.get? j = some (some x) →
      (∀ i, i < l.length → i ≠ j → l.get? i = some none) →
      (l.map (expO f)).sum = f x := by
  intro l
  induction l with
  | nil => intro j x hj _; simp at hj
  | cons a l ih =>
    intro j x hj hrest
    cases j with
    | zero =>
      simp at hj
      subst hj
      have hz : (l.map (expO f)).sum = 0 := by
        apply List.sum_eq_zero
        intro y hy
        rcases List.mem_map.mp hy with ⟨o, ho, rfl⟩
        rcases List.get?_of_mem ho with ⟨i, hi⟩
        obtain ⟨hlt, _⟩ := List.get?_eq_some.mp hi
        have := hrest (i + 1) (by simpa using Nat.succ_lt_succ hlt) (by omega)
        simp only [List.get?_cons_succ] at this
        rw [hi] at this
        cases this
        rfl
      simp [expO, hz]
    | succ j =>
      have ha : a = none := by
        have := hrest 0 (by simp) (by simp)
        simpa using this
      subst ha
      have := ih j x (by simpa using hj) ?_
      · simpa [expO] using this
      · intro i hi hne
        have := hrest (i + 1) (by simpa using Nat.succ_lt_succ hi) (by omega)
        simpa using this

theorem vaddPad_nil_right (v : QVec) : vaddPad v [] = v := by cases v <;> rfl

theorem vaddPad_zero_right : ∀ (v : QVec) (n : ℕ), v.length = n → vaddPad v (zeroV n) = v := by
  intro v
  induction v with
  | nil => intro n h; subst h; rfl
  | cons x v ih =>
    intro n h
    subst h
    show (x + 0) :: vaddPad v (zeroV v.length) = x :: v
    rw [add_zero, ih v.length rfl]

theorem vaddPad_zero_left : ∀ (v : QVec) (n : ℕ), v.length = n → vaddPad (zeroV n) v = v := by
  intro v
  induction v with
  | nil => intro n h; subst h; rfl
  | cons x v ih =>
    intro n h
    subst h
    show (0 + x) :: vaddPad (zeroV v.length) v = x :: v
    rw [zero_add, ih v.length rfl]

theorem smulV_one (v : QVec) : smulV 1 v = v := by
  simp [smulV]

theorem smulV_zero (v : QVec) : smulV 0 v = zeroV v.length := by
  induction v with
  | nil => rfl
  | cons x v ih =>
    show (0 * x) :: smulV 0 v = zeroV (v.length + 1)
    rw [zero_mul, ih]
    rfl

-- a weighted sum in which every weight is zero is a zero vector (or empty)
theorem wsum_allzero (D : ℕ) :
    ∀ (ws : List ℚ) (vs : List QVec), ws.length = vs.length →
      (∀ v ∈ vs, v.length = D) →
      (∀ i, i < ws.length → ws.get? i = some 0) →
      wsum ws vs = [] ∨ wsum ws vs = zeroV D := by
  intro ws
  induction ws with
  | nil =>
    intro vs h _ _
    left
    cases vs with
    | nil => rfl
    | cons v vs => simp at h
  | cons w ws ih =>
    intro vs hlen hD hz
    cases vs with
    | nil => simp at hlen
    | cons v vs =>
      have hw : w = 0 := by have := hz 0 (by simp); simpa using this
      subst hw
      have hzt : ∀ i, i < ws.length → ws.get? i = some 0 := by
        intro i hi
        have := hz (i + 1) (by simpa using Nat.succ_lt_succ hi)
        simpa using this
      have hrec := ih vs (by simpa using hlen) (fun u hu => hD u (by simp [hu])) hzt
      have hvD : v.length = D := hD v (by simp)
      have hstep : wsum (0 :: ws) (v :: vs) = vaddPad (smulV 0 v) (wsum ws vs) := rfl
      rw [hstep, smulV_zero, hvD]
      rcases hrec with h | h
      · right; rw [h, vaddPad_nil_right]
      · right
        rw [h, vaddPad_zero_left (zeroV D) D (by simp [zeroV])]

-- a weighted sum with weight one at position j and zero elsewhere returns
-- exactly the j-th vector
theorem wsum_onehot (D : ℕ) :
    ∀ (ws : List ℚ) (vs : List QVec) (j : ℕ),
      ws.length = vs.length →
      (∀ v ∈ vs, v.length = D) →
      ws.get? j = some 1 →
      (∀ i, i < ws.length → i ≠ j → ws.get? i = some 0) →
      wsum ws vs = vs.getD j [] := by
  intro ws
  induction ws with
  | nil => intro vs j _ _ hj _; simp at hj
  | cons w ws ih =>
    intro vs j hlen hD hj hz
    cases vs with
    | nil => simp at hlen
    | cons v vs =>
      cases j with
      | zero =>
        have hw : w = 1 := by simpa using hj
        subst hw
        have hzt : ∀ i, i < ws.length → ws.get? i = some 0 := by
          intro i hi
          have := hz (i + 1) (by simpa using Nat.succ_lt_succ hi) (by omega)
          simpa using this
        have hrec := wsum_allzero D ws vs (by simpa using hlen)
          (fun u hu => hD u (by simp [hu])) hzt
        have hvD : v.length = D := hD v (by simp)
        have hstep : wsum (1 :: ws) (v :: vs) = vaddPad (smulV 1 v) (wsum ws vs) := rfl
        rw [hstep, smulV_one]
        rcases hrec with h | h
        · rw [h, vaddPad_nil_right]; rfl
        · rw [h, vaddPad_zero_right v D hvD]; rfl
      | succ j =>
        have hw : w = 0 := by
          have := hz 0 (by simp) (by omega)
          simpa using this
        subst hw
        have hj' : ws.get? j = some 1 := by simpa using hj
        have hzt : ∀ i, i < ws.length → i ≠ j → ws.get? i = some 0 := by
          intro i hi hne
          have := hz (i + 1) (by simpa using Nat.succ_lt_succ hi) (by omega)
          simpa using this
        have hrec := ih vs j (by simpa using hlen) (fun u hu => hD u (by simp [hu])) hj' hzt
        have hstep : wsum (0 :: ws) (v :: vs) = vaddPad (smulV 0 v) (wsum ws vs) := rfl
        rw [hstep, smulV_zero, hD v (by simp), hrec]
        have hlen' : ws.length = vs.length := by simpa using hlen
        have hjlen : j < vs.length := by
          rcases List.get?_eq_some.mp hj' with ⟨hB, _⟩
          omega
        have hmem : vs.getD j [] ∈ vs := by
          have hg : vs.getD j [] = vs.get ⟨j, hjlen⟩ := by
            rw [List.getD_eq_getElem?_getD, List.getElem?_eq_getElem hjlen]
            rfl
          rw [hg]
          exact List.get_mem vs _ _
        rw [vaddPad_zero_left (vs.getD j []) D (hD _ (List.mem_cons_of_mem v hmem))]
        rfl

/-- C5: For every Attention forward call whose mask marks exactly one key
position j of the sample as valid, the output equals that key position's
original (unprojected) feature vector exactly: every masked-out position is
filled with score negative infinity before the softmax and so receives
weight zero, while the single valid position receives weight one (for any
positive exponential function). -/
theorem attention_single_valid_key (expf : ℚ → ℚ) (A : Attention)
    (keys : List QVec) (q : QVec) (mask : List Bool) (D j : ℕ)
    (hlen : keys.length = mask.length)
    (hj : mask.get? j = some true)
    (hothers : ∀ i, i < mask.length → i ≠ j → mask.get? i = some false)
    (hexp : ∀ x, 0 < expf x)
    (hD : ∀ v ∈ keys, v.length = D) :
    Attention.forward expf A keys q (some mask) = keys.getD j [] := by
  have hjm : j < mask.length := by
    rcases List.get?_eq_some.mp hj with ⟨hh, _⟩
    exact hh
  set sc : QVec → ℚ :=
    fun k => A.full_att (A.dropout ((vaddPad (A.features_att k) (A.decoder_att q)).map relu))
    with hsc
  set att := keys.map sc with hatt
  set attM := List.zipWith (fun s b => if b then some s else none) att mask with hattM
  have hforward : Attention.forward expf A keys q (some mask) =
      wsum (softmaxMasked expf attM) keys := rfl
  have hattlen : att.length = keys.length := by simp [hatt]
  have hattMlen : attM.length = mask.length := by
    simp [hattM, hattlen, hlen]
  obtain ⟨aj, haj⟩ : ∃ aj, att.get? j = some aj :=
    ⟨_, List.get?_eq_get (by rw [hattlen, hlen]; exact hjm)⟩
  have hMj : attM.get? j = some (some aj) := by
    rw [hattM, getq_zipWith, haj, hj]
    simp
  have hMother : ∀ i, i < attM.length → i ≠ j → attM.get? i = some none := by
    intro i hi hne
    have him : i < mask.length := by rwa [hattMlen] at hi
    obtain ⟨ai, hai⟩ : ∃ ai, att.get? i = some ai :=
      ⟨_, List.get?_eq_get (by rw [hattlen, hlen]; exact him)⟩
    rw [hattM, getq_zipWith, hai, hothers i him hne]
    simp
  have hsum : (attM.map (expO expf)).sum = expf aj := sumExp_onehot expf attM j aj hMj hMother
  have hws : softmaxMasked expf attM = attM.map (fun x => expO expf x / expf aj) := by
    simp only [softmaxMasked, hsum]
  have hwj : (softmaxMasked expf attM).get? j = some 1 := by
    rw [hws, List.get?_map, hMj]
    simp [expO, div_self (ne_of_gt (hexp aj))]
  have hwz : ∀ i, i < (softmaxMasked expf attM).length → i ≠ j →
      (softmaxMasked expf attM).get? i = some 0 := by
    intro i hi hne
    have hi' : i < attM.length := by
      rw [hws] at hi
      simpa using hi
    rw [hws, List.get?_map, hMother i hi' hne]
    simp [expO]
  have hwlen : (softmaxMasked expf attM).length = keys.length := by
    rw [hws]
    simp [hattMlen, hlen]
  rw [hforward]
  exact wsum_onehot D _ keys j hwlen hD hwj hwz

-- fixed concrete Attention instance used by the witness below
def attnWitnessA : Attention :=
  { features_att := fun v => v
    decoder_att := fun v => v
    full_att := fun v => vsumQ v
    dropout := fun v => v }

/-- Witness for attention_single_valid_key: two keys, only position 1 valid,
output is exactly key 1. -/
theorem attention_single_valid_key_witness :
    Attention.forward (fun _ => 1) attnWitnessA [[1, 2], [5, 7]] [0, 0]
      (some [false, true]) = [5, 7] := by
  have := attention_single_valid_key (fun _ => 1) attnWitnessA [[1, 2], [5, 7]] [0, 0]
    [false, true] 2 1 (by decide) (by decide)
    (by
      intro i hi hne
      have hi2 : i < 2 := by simpa using hi
      have hi0 : i = 0 := by omega
      subst hi0
      decide)
    (fun x => by norm_num)
    (by decide)
  simpa using this

-- utils.py: a dgl.DGLGraph as assembled by the graph builder; numNodes is
-- the add_nodes count, ndataFn is ndata of key F_n, edges the (src, dst)
-- pairs in insertion order, edataFe the edata of key F_e
structure SGraph where
  numNodes : ℕ
  ndataFn : List QVec
  edges : List (ℕ × ℕ)
  edataFe : List QVec
deriving DecidableEq

-- mutable state threaded through the builder loop: the (possibly updated)
-- object features o and object mask om, plus a counter into the stream u of
-- uniform random draws backing every torch.bernoulli call
structure BuildState where
  o : List (List QVec)
  om : List (List Bool)
  ctr : ℕ

-- utils.py lines 362-371 (one sample of the augmentation == 0 branch, which
-- is also the body shared by every branch before its augmentation step)
def identGraph (ob : List QVec) (omb : List Bool) (rb : List QVec) (rmb : List Bool)
    (pb : List (ℕ × ℕ)) : SGraph :=
  { numNodes := countTrue omb
    ndataFn := maskSelect ob omb
    edges := maskSelect pb rmb
    edataFe := maskSelect rb rmb }

-- torch.bernoulli(1 - p) at draw index ctr + i, modelled as the uniform
-- draw u (ctr + i) falling below 1 - p
def bern1 (u : ℕ → ℚ) (ctr : ℕ) (p : ℚ) (i : ℕ) : Bool :=
  decide (u (ctr + i) < 1 - p)

-- utils.py lines 466-476 drop_edge: keep each edge independently with
-- probability 1 - drop_prob; dgl.edge_subgraph with preserve_nodes keeps
-- all nodes and the surviving edges (with their features) in edge-id order
def drop_edge (u : ℕ → ℚ) (p : ℚ) (g : SGraph) (ctr : ℕ) : SGraph × ℕ :=
  let E := g.edges.length
  let keep := (List.range E).filter (fun i => bern1 u ctr p i)
  ({ numNodes := g.numNodes
     ndataFn := g.ndataFn
     edges := keep.map (fun i => g.edges.getD i (0, 0))
     edataFe := keep.map (fun i => g.edataFe.getD i []) }, ctr + E)

-- utils.py lines 478-488 drop_node: keep each node with probability
-- 1 - drop_prob; dgl.node_subgraph relabels surviving nodes by their
-- position among the kept ids and keeps exactly the induced edges
def drop_node (u : ℕ → ℚ) (p : ℚ) (g : SGraph) (ctr : ℕ) : SGraph × ℕ :=
  let N := g.numNodes
  let kept := (List.range N).filter (fun v => bern1 u ctr p v)
  let keptEdges := (List.range g.edges.length).filter
    (fun i => (kept.contains (g.edges.getD i (0, 0)).1 &&
               kept.contains (g.edges.getD i (0, 0)).2))
  ({ numNodes := kept.length
     ndataFn := kept.map (fun v => g.ndataFn.getD v [])
     edges := keptEdges.map (fun i =>
       (kept.indexOf (g.edges.getD i (0, 0)).1, kept.indexOf (g.edges.getD i (0, 0)).2))
     edataFe := keptEdges.map (fun i => g.edataFe.getD i []) }, ctr + N)

-- utils.py lines 490-497 drop_feat: zero a channel of every row where the
-- per-channel torch.bernoulli(p) draw fires; D is x.shape[1]
def drop_feat (u : ℕ → ℚ) (p : ℚ) (D : ℕ) (rows : List QVec) (ctr : ℕ) : List QVec × ℕ :=
  (rows.map (fun row =>
    (List.range row.length).map
      (fun dch => if decide (u (ctr + dch) < p) then 0 else row.getD dch 0)), ctr + D)

-- tensor[mask] = values : successive rows of values replace the mask-true
-- positions (the source errors on a count mismatch; leftover positions keep
-- their original rows here)
def maskAssign {α : Type} : List α → List Bool → List α → List α
  | [], _, _ => []
  | l, [], _ => l
  | _ :: l, true :: m, v :: vs => v :: maskAssign l m vs
  | a :: l, true :: m, [] => a :: maskAssign l m []
  | a :: l, false :: m, vs => a :: maskAssign l m vs

-- per-sample builder steps, one for each augmentation branch of
-- create_batched_graphs_augmented (utils.py lines 362-451)

def aug0_sample (r : List (List QVec)) (rm : List (List Bool)) (pairs : List (List (ℕ × ℕ)))
    (st : BuildState) (b : ℕ) : SGraph × BuildState :=
  (identGraph (st.o.getD b []) (st.om.getD b []) (r.getD b []) (rm.getD b []) (pairs.getD b []),
   st)

-- augmentation == 1 branch (labelled node_drop in the source comment but
-- actually drop_edge, utils.py lines 372-382)
def aug1_sample (u : ℕ → ℚ) (edge_drop_prob : ℚ) (r : List (List QVec))
    (rm : List (List Bool)) (pairs : List (List (ℕ × ℕ)))
    (st : BuildState) (b : ℕ) : SGraph × BuildState :=
  let g0 := identGraph (st.o.getD b []) (st.om.getD b []) (r.getD b []) (rm.getD b [])
    (pairs.getD b [])
  let p := drop_edge u edge_drop_prob g0 st.ctr
  (p.1, { st with ctr := p.2 })

-- augmentation == 2 branch (sub_graph: drop_node then drop_edge,
-- utils.py lines 383-394)
def aug2_sample (u : ℕ → ℚ) (edge_drop_prob node_drop_prob : ℚ) (r : List (List QVec))
    (rm : List (List Bool)) (pairs : List (List (ℕ × ℕ)))
    (st : BuildState) (b : ℕ) : SGraph × BuildState :=
  let g0 := identGraph (st.o.getD b []) (st.om.getD b []) (r.getD b []) (rm.getD b [])
    (pairs.getD b [])
  let p := drop_node u node_drop_prob g0 st.ctr
  let q := drop_edge u edge_drop_prob p.1 p.2
  (q.1, { st with ctr := q.2 })

-- augmentation == 3 branch (labelled edge_drop in the source comment but
-- actually drop_node, utils.py lines 395-405)
def aug3_sample (u : ℕ → ℚ) (node_drop_prob : ℚ) (r : List (List QVec))
    (rm : List (List Bool)) (pairs : List (List (ℕ × ℕ)))
    (st : BuildState) (b : ℕ) : SGraph × BuildState :=
  let g0 := identGraph (st.o.getD b []) (st.om.getD b []) (r.getD b []) (rm.getD b [])
    (pairs.getD b [])
  let p := drop_node u node_drop_prob g0 st.ctr
  (p.1, { st with ctr := p.2 })

-- augmentation == 4 branch (attr_mask, utils.py lines 406-416): the masked
-- rows of o[b] are overwritten with their channel-dropped version before
-- being installed as node features
def aug4_sample (u : ℕ → ℚ) (attr_drop_prob : ℚ) (r : List (List QVec))
    (rm : List (List Bool)) (pairs : List (List (ℕ × ℕ)))
    (st : BuildState) (b : ℕ) : SGraph × BuildState :=
  let ob := st.o.getD b []
  let omb := st.om.getD b []
  let Dch := (ob.headD []).length
  let p := drop_feat u attr_drop_prob Dch (maskSelect ob omb) st.ctr
  let ob2 := maskAssign ob omb p.1
  ({ numNodes := countTrue omb
     ndataFn := p.1
     edges := maskSelect (pairs.getD b []) (rm.getD b [])
     edataFe := maskSelect (r.getD b []) (rm.getD b []) },
   { st with o := st.o.set b ob2, ctr := p.2 })

-- augmentation == 5 branch (add global node, utils.py lines 417-451): when
-- the sample is below the 100-object capacity, append one synthetic node
-- holding the mean of the real node features, connect it bidirectionally to
-- every real node, give all 2 * c new edges the mean relation feature, and
-- write the new node back into o and om; at exactly 100 objects fall back
-- to the identity construction
def aug5_sample (r : List (List QVec)) (rm : List (List Bool)) (pairs : List (List (ℕ × ℕ)))
    (st : BuildState) (b : ℕ) : SGraph × BuildState :=
  let ob := st.o.getD b []
  let omb := st.om.getD b []
  let rb := r.getD b []
  let rmb := rm.getD b []
  let pb := pairs.getD b []
  if countTrue omb = 100 then
    (identGraph ob omb rb rmb pb, st)
  else
    let c := countTrue omb
    let F_n_org := maskSelect ob omb
    let global_node_embedding := vecMeanL F_n_org
    let F_n := F_n_org ++ [global_node_embedding]
    let omb2 := omb.set c true
    let ob2 := maskAssign ob omb2 F_n
    let F_e_org := maskSelect rb rmb
    let global_edge_embedding := vecMeanL F_e_org
    ({ numNodes := 1 + c
       ndataFn := F_n
       edges := maskSelect pb rmb ++ (List.range c).map (fun s => (s, c)) ++
         (List.range c).map (fun s => (c, s))
       edataFe := F_e_org ++ List.replicate (c * 2) global_edge_embedding },
     { st with o := st.o.set b ob2, om := st.om.set b omb2 })

-- the doubly nested loop (for b in range(bsz): for k in range(beam_size):)
-- flattened into one list of sample indices
def sampleBeamIdx (bsz beam : ℕ) : List ℕ :=
  ((List.range bsz).map (fun b => List.replicate beam b)).flatten

def buildGo (f : BuildState → ℕ → SGraph × BuildState) :
    List ℕ → BuildState → List SGraph × BuildState
  | [], st => ([], st)
  | b :: bs, st =>
    let p := f st b
    let q := buildGo f bs p.2
    (p.1 :: q.1, q.2)

def invalidAugmentationMessage : String :=
  "Invalid input. The augmentation must be [0,1,2,3,4,5]"

-- utils.py lines 354-454, create_batched_graphs_augmented: dispatch on the
-- augmentation code, build one graph per sample (and per beam), return the
-- graphs together with the possibly updated o and om; an augmentation code
-- outside 0..5 raises ValueError before any graph is built
def create_batched_graphs_augmented (u : ℕ → ℚ) (o : List (List QVec))
    (om : List (List Bool)) (r : List (List QVec)) (rm : List (List Bool))
    (pairs : List (List (ℕ × ℕ))) (beam_size : ℕ) (augmentation : ℕ)
    (edge_drop_prob node_drop_prob attr_drop_prob : ℚ) :
    Except String (List SGraph × List (List QVec) × List (List Bool)) :=
  let bsz := o.length
  let idx := sampleBeamIdx bsz beam_size
  let st0 : BuildState := ⟨o, om, 0⟩
  if augmentation = 0 then
    let res := buildGo (aug0_sample r rm pairs) idx st0
    Except.ok (res.1, res.2.o, res.2.om)
  else if augmentation = 1 then
    let res := buildGo (aug1_sample u edge_drop_prob r rm pairs) idx st0
    Except.ok (res.1, res.2.o, res.2.om)
  else if augmentation = 2 then
    let res := buildGo (aug2_sample u edge_drop_prob node_drop_prob r rm pairs) idx st0
    Except.ok (res.1, res.2.o, res.2.om)
  else if augmentation = 3 then
    let res := buildGo (aug3_sample u node_drop_prob r rm pairs) idx st0
    Except.ok (res.1, res.2.o, res.2.om)
  else if augmentation = 4 then
    let res := buildGo (aug4_sample u attr_drop_prob r rm pairs) idx st0
    Except.ok (res.1, res.2.o, res.2.om)
  else if augmentation = 5 then
    let res := buildGo (aug5_sample r rm pairs) idx st0
    Except.ok (res.1, res.2.o, res.2.om)
  else
    Except.error invalidAugmentationMessage

-- models.py, class ContextGAT: configuration flags plus the learned layers
-- input_proj, object_score, relation_score (both score layers map the
-- concatenation of two feature_dim vectors to one scalar), linear_phi_edge
-- and linear_phi_node as function-valued fields
structure ContextGAT where
  context_dim : ℕ
  feature_dim : ℕ
  use_obj_info : Bool
  use_rel_info : Bool
  k_update_steps : ℕ
  update_relations : Bool
  input_proj : QVec → QVec
  object_score : QVec → ℚ
  relation_score : QVec → ℚ
  linear_phi_edge : QVec → QVec
  linear_phi_node : QVec → QVec

def cgatAssertMessage : String :=
  "Either cfg.MODEL.IO.USE_NEIGHBOURHOOD_RELATIONS or cfg.MODEL.IO.USE_NEIGHBOURHOOD_RELATIONS must be set to true."

-- models.py lines 55-75, ContextGAT.__init__: the assert on line 64 fails
-- at construction time when neither use_obj_info nor use_rel_info is set,
-- and no module is produced
def mkContextGAT (context_dim feature_dim : ℕ) (use_obj_info use_rel_info : Bool)
    (k_update_steps : ℕ) (update_relations : Bool)
    (input_proj : QVec → QVec) (object_score relation_score : QVec → ℚ)
    (linear_phi_edge linear_phi_node : QVec → QVec) : Except String ContextGAT :=
  if use_obj_info || use_rel_info then
    Except.ok
      { context_dim := context_dim
        feature_dim := feature_dim
        use_obj_info := use_obj_info
        use_rel_info := use_rel_info
        k_update_steps := k_update_steps
        update_relations := update_relations
        input_proj := input_proj
        object_score := object_score
        relation_score := relation_score
        linear_phi_edge := linear_phi_edge
        linear_phi_node := linear_phi_node }
  else
    Except.error cgatAssertMessage

-- a batch of graphs as produced by dgl.batch: concatenated node and edge
-- data with per-graph node and edge counts, edges shifted by node offsets
structure BatchedGraphs where
  batchNumNodes : List ℕ
  batchNumEdges : List ℕ
  ndataFn : List QVec
  edges : List (ℕ × ℕ)
  edataFe : List QVec
deriving DecidableEq

def edgesWithOffsets : List SGraph → ℕ → List (ℕ × ℕ)
  | [], _ => []
  | g :: rest, off =>
    g.edges.map (fun e2 => (e2.1 + off, e2.2 + off)) ++ edgesWithOffsets rest (off + g.numNodes)

def dglBatch (gs : List SGraph) : BatchedGraphs :=
  { batchNumNodes := gs.map (fun g => g.numNodes)
    batchNumEdges := gs.map (fun g => g.edges.length)
    ndataFn := (gs.map (fun g => g.ndataFn)).flatten
    edges := edgesWithOffsets gs 0
    edataFe := (gs.map (fun g => g.edataFe)).flatten }

-- which graph of the batch a concatenated node (or edge) id belongs to
def graphIndexOf : List ℕ → ℕ → ℕ
  | [], _ => 0
  | c :: cs, v => if v < c then 0 else graphIndexOf cs (v - c) + 1

-- torch.split with a list of section sizes
def splitCounts {α : Type} : List α → List ℕ → List (List α)
  | _, [] => []
  | l, c :: cs => l.take c :: splitCounts (l.drop c) cs

def listMaxN (l : List ℕ) : ℕ := l.foldr max 0

-- torch.nn.utils.rnn.pad_sequence with batch_first: right-pad every
-- per-sample row block with zero vectors up to the longest block
def padSeq (D : ℕ) (rows : List (List QVec)) : List (List QVec) :=
  let m := listMaxN (rows.map List.length)
  rows.map (fun rws => rws ++ List.replicate (m - rws.length) (zeroV D))

-- models.py lines 77-114, io_attention_send and io_attention_reduce fused
-- with the dgl update_all dispatch: per node, gather the messages of its
-- incoming edges (source-node score and features when use_obj_info, edge
-- score and features when use_rel_info; the reduce function of the source
-- indexes both mailboxes unconditionally, so running it with use_obj_info
-- false raises KeyError, a path no claim exercises), softmax the stacked
-- scores, weight-sum the stacked features, and pass the concatenation with
-- the node's current features through linear_phi_node and relu; nodes with
-- no incoming edge receive the dgl zero fill; when update_relations is set
-- each edge is likewise recomputed from the softmax of its endpoint scores
def gatStep (expf : ℚ → ℚ) (cg : ContextGAT) (hTn hTe : List QVec)
    (edges : List (ℕ × ℕ)) (FnT FeT : List QVec) : List QVec × List QVec :=
  let sN := (List.range FnT.length).map
    (fun v => cg.object_score ((hTn.getD v []) ++ (FnT.getD v [])))
  let sE := (List.range edges.length).map
    (fun i => cg.relation_score ((hTe.getD i []) ++ (FeT.getD i [])))
  let FnNext := (List.range FnT.length).map (fun v =>
    let incoming := (List.range edges.length).filter (fun i => (edges.getD i (0, 0)).2 == v)
    if incoming.isEmpty then zeroV cg.feature_dim
    else
      let sMsgs :=
        (if cg.use_obj_info then
          incoming.map (fun i => sN.getD (edges.getD i (0, 0)).1 0) else []) ++
        (if cg.use_rel_info then incoming.map (fun i => sE.getD i 0) else [])
      let fMsgs :=
        (if cg.use_obj_info then
          incoming.map (fun i => FnT.getD (edges.getD i (0, 0)).1 []) else []) ++
        (if cg.use_rel_info then incoming.map (fun i => FeT.getD i []) else [])
      let alpha := softmaxMasked expf (sMsgs.map some)
      let applied := wsum alpha fMsgs
      (cg.linear_phi_node (applied ++ (FnT.getD v []))).map relu)
  let FeNext :=
    if cg.update_relations then
      (List.range edges.length).map (fun i =>
        let e2 := edges.getD i (0, 0)
        let alpha := softmaxMasked expf ([sN.getD e2.1 0, sN.getD e2.2 0].map some)
        let applied := wsum alpha [FnT.getD e2.1 [], FnT.getD e2.2 []]
        (cg.linear_phi_edge (applied ++ (FeT.getD i []))).map relu)
    else FeT
  (FnNext, FeNext)

def gatIterate (expf : ℚ → ℚ) (cg : ContextGAT) (hTn hTe : List QVec)
    (edges : List (ℕ × ℕ)) : ℕ → List QVec × List QVec → List QVec × List QVec
  | 0, st => st
  | k + 1, st => gatIterate expf cg hTn hTe edges k (gatStep expf cg hTn hTe edges st.1 st.2)

-- models.py lines 116-146, ContextGAT.forward: when the batched graph has
-- edges, broadcast the projected hidden state to nodes and edges and run
-- k_update_steps rounds of message passing; with zero edges there is
-- nothing to do and the original F_n passes through; either way, split the
-- node features by per-graph node counts, right-pad, and derive the mask
-- io.sum(dim=-1) != 0
def ContextGAT.forward (expf : ℚ → ℚ) (cg : ContextGAT) (input_hidden : List QVec)
    (graphs : BatchedGraphs) (batch_num_nodes : Option (List ℕ)) :
    List (List QVec) × List (List Bool) :=
  let b_num_nodes := batch_num_nodes.getD graphs.batchNumNodes
  let h_t := input_hidden.map cg.input_proj
  let final_Fn :=
    if 0 < graphs.edges.length then
      let hTn := (List.range graphs.ndataFn.length).map
        (fun v => h_t.getD (graphIndexOf graphs.batchNumNodes v) [])
      let hTe := (List.range graphs.edges.length).map
        (fun i => h_t.getD (graphIndexOf graphs.batchNumEdges i) [])
      (gatIterate expf cg hTn hTe graphs.edges cg.k_update_steps
        (graphs.ndataFn, graphs.edataFe)).1
    else graphs.ndataFn
  let ioPad := padSeq cg.feature_dim (splitCounts final_Fn b_num_nodes)
  let io_mask := ioPad.map (List.map (fun v => decide (vsumQ v ≠ 0)))
  (ioPad, io_mask)

/-- C9: constructing a ContextGAT with use_obj_info and use_rel_info both
false fails fast at construction time with the assertion message, returning
no module; and calling the graph builder with an augmentation code outside
0..5 fails fast with ValueError, returning no graphs and no partial result
(the error value carries nothing but the message). -/
theorem config_errors_fail_fast
    (cdim fdim k : ℕ) (urel : Bool)
    (ip : QVec → QVec) (os rs : QVec → ℚ) (lpe lpn : QVec → QVec)
    (u : ℕ → ℚ) (o : List (List QVec)) (om : List (List Bool))
    (r : List (List QVec)) (rm : List (List Bool)) (pairs : List (List (ℕ × ℕ)))
    (beam aug : ℕ) (ep np ap : ℚ) (haug : ¬ aug ≤ 5) :
    mkContextGAT cdim fdim false false k urel ip os rs lpe lpn =
      Except.error cgatAssertMessage ∧
    create_batched_graphs_augmented u o om r rm pairs beam aug ep np ap =
      Except.error invalidAugmentationMessage := by
  constructor
  · rfl
  · simp only [create_batched_graphs_augmented]
    rw [if_neg (by omega), if_neg (by omega), if_neg (by omega), if_neg (by omega),
      if_neg (by omega), if_neg (by omega)]

/-- Witness for config_errors_fail_fast at augmentation code 6 and trivial
concrete arguments. -/
theorem config_errors_fail_fast_witness :
    mkContextGAT 1 1 false false 1 false (fun v => v) (fun _ => 0) (fun _ => 0)
      (fun v => v) (fun v => v) = Except.error cgatAssertMessage ∧
    create_batched_graphs_augmented (fun _ => 0) [[[1]]] [[true]] [[[1]]] [[true]]
      [[(0, 0)]] 1 6 0 0 0 = Except.error invalidAugmentationMessage :=
  config_errors_fail_fast 1 1 1 false (fun v => v) (fun _ => 0) (fun _ => 0)
    (fun v => v) (fun v => v) (fun _ => 0) [[[1]]] [[true]] [[[1]]] [[true]]
    [[(0, 0)]] 1 6 0 0 0 (by decide)

def emptySGraph : SGraph := { numNodes := 0, ndataFn := [], edges := [], edataFe := [] }

-- a builder step that never touches the state turns the loop into a map
theorem buildGo_const_state (f : BuildState → ℕ → SGraph × BuildState)
    (hf : ∀ st b, (f st b).2 = st) :
    ∀ (bs : List ℕ) (st : BuildState),
      buildGo f bs st = (bs.map (fun b => (f st b).1), st) := by
  intro bs
  induction bs with
  | nil => intro st; rfl
  | cons b bs ih =>
    intro st
    simp only [buildGo]
    rw [hf st b, ih st]
    rfl

theorem flatten_map_singleton {α : Type} :
    ∀ l : List α, (l.map (fun b => [b])).flatten = l := by
  intro l
  induction l with
  | nil => rfl
  | cons a l ih =>
    show a :: (l.map (fun b => [b])).flatten = a :: l
    rw [ih]

theorem sampleBeamIdx_one (bsz : ℕ) : sampleBeamIdx bsz 1 = List.range bsz := by
  unfold sampleBeamIdx
  exact flatten_map_singleton (List.range bsz)

theorem getD_map_range {α : Type} (f : ℕ → α) (n b : ℕ) (hb : b < n) (d : α) :
    ((List.range n).map f).getD b d = f b := by
  rw [List.getD_eq_getElem?_getD, List.getElem?_map, List.getElem?_range hb]
  rfl

theorem maskSelect_cons_true {α : Type} (a : α) (l : List α) (m : List Bool) :
    maskSelect (a :: l) (true :: m) = a :: maskSelect l m := rfl

theorem maskSelect_cons_false {α : Type} (a : α) (l : List α) (m : List Bool) :
    maskSelect (a :: l) (false :: m) = maskSelect l m := rfl

-- the row count of a boolean mask selection is the true count of the mask
theorem maskSelect_length {α : Type} :
    ∀ (l : List α) (m : List Bool), l.length = m.length →
      (maskSelect l m).length = countTrue m := by
  intro l
  induction l with
  | nil =>
    intro m h
    cases m with
    | nil => rfl
    | cons b m => simp at h
  | cons a l ih =>
    intro m h
    cases m with
    | nil => simp at h
    | cons b m =>
      have h2 : l.length = m.length := by simpa using h
      cases b
      · rw [maskSelect_cons_false, ih m h2]
        simp [countTrue, List.countP_cons]
      · rw [maskSelect_cons_true]
        simp only [List.length_cons, ih m h2]
        simp [countTrue, List.countP_cons]

/-- C6: graph building with augmentation code 0 (identity) produces, for
every sample b, a graph whose node count is the number of true entries of
the object mask OM[b], whose node features are the mask-selected object
feature rows, whose edges are the mask-selected pair-index entries (so the
edge count is the true count of the relation mask RM[b]), and whose edge
features are the mask-selected relation feature rows; o and om are
returned unchanged. -/
theorem identity_build_per_sample (u : ℕ → ℚ) (o : List (List QVec))
    (om : List (List Bool)) (r : List (List QVec)) (rm : List (List Bool))
    (pairs : List (List (ℕ × ℕ))) (ep np ap : ℚ)
    (gs : List SGraph) (o2 : List (List QVec)) (om2 : List (List Bool)) (b : ℕ)
    (hres : create_batched_graphs_augmented u o om r rm pairs 1 0 ep np ap =
      Except.ok (gs, o2, om2))
    (hb : b < o.length)
    (hrm : (rm.getD b []).length = (pairs.getD b []).length) :
    gs.length = o.length ∧ o2 = o ∧ om2 = om ∧
    (gs.getD b emptySGraph).numNodes = countTrue (om.getD b []) ∧
    (gs.getD b emptySGraph).ndataFn = maskSelect (o.getD b []) (om.getD b []) ∧
    (gs.getD b emptySGraph).edges = maskSelect (pairs.getD b []) (rm.getD b []) ∧
    (gs.getD b emptySGraph).edataFe = maskSelect (r.getD b []) (rm.getD b []) ∧
    (gs.getD b emptySGraph).edges.length = countTrue (rm.getD b []) := by
  have hcomp : create_batched_graphs_augmented u o om r rm pairs 1 0 ep np ap =
      Except.ok ((List.range o.length).map
        (fun b2 => identGraph (o.getD b2 []) (om.getD b2 []) (r.getD b2 [])
          (rm.getD b2 []) (pairs.getD b2 [])), o, om) := by
    simp only [create_batched_graphs_augmented]
    rw [if_pos trivial, sampleBeamIdx_one, buildGo_const_state _ (fun st b2 => rfl)]
    rfl
  rw [hcomp] at hres
  cases hres
  have hget : ((List.range o.length).map
      (fun b2 => identGraph (o.getD b2 []) (om.getD b2 []) (r.getD b2 [])
        (rm.getD b2 []) (pairs.getD b2 []))).getD b emptySGraph =
      identGraph (o.getD b []) (om.getD b []) (r.getD b []) (rm.getD b [])
        (pairs.getD b []) :=
    getD_map_range _ _ _ hb _
  refine ⟨by simp, rfl, rfl, ?_, ?_, ?_, ?_, ?_⟩
  · rw [hget]; rfl
  · rw [hget]; rfl
  · rw [hget]; rfl
  · rw [hget]; rfl
  · rw [hget]
    exact maskSelect_length _ _ hrm.symm

-- the expected identity graph of the witness sample below
def identWitnessGraph : SGraph :=
  { numNodes := 1, ndataFn := [[1]], edges := [(0, 0)], edataFe := [[3]] }

/-- Witness for identity_build_per_sample: one sample with object mask
[true, false] and one relation. -/
theorem identity_build_per_sample_witness :
    [identWitnessGraph].length = [[[1], [2]]].length ∧
    ([[[1], [2]]] : List (List QVec)) = [[[1], [2]]] ∧
    ([[true, false]] : List (List Bool)) = [[true, false]] ∧
    ([identWitnessGraph].getD 0 emptySGraph).numNodes =
      countTrue ([[true, false]].getD 0 []) ∧
    ([identWitnessGraph].getD 0 emptySGraph).ndataFn =
      maskSelect ([[[1], [2]]].getD 0 []) ([[true, false]].getD 0 []) ∧
    ([identWitnessGraph].getD 0 emptySGraph).edges =
      maskSelect ([[(0, 0)]].getD 0 []) ([[true]].getD 0 []) ∧
    ([identWitnessGraph].getD 0 emptySGraph).edataFe =
      maskSelect ([[[3]]].getD 0 []) ([[true]].getD 0 []) ∧
    ([identWitnessGraph].getD 0 emptySGraph).edges.length =
      countTrue ([[true]].getD 0 []) :=
  identity_build_per_sample (fun _ => 0) [[[1], [2]]] [[true, false]] [[[3]]]
    [[true]] [[(0, 0)]] 0 0 0 [identWitnessGraph] [[[1], [2]]] [[true, false]] 0
    (by rfl) (by decide) (by decide)

-- the graph part of the augmentation == 5 branch as a pure per-sample
-- function of the original (pre-mutation) o and om rows; aug5_sample reads
-- its sample row before writing back, so its graph equals this function
def aug5_graph (ob : List QVec) (omb : List Bool) (rb : List QVec) (rmb : List Bool)
    (pb : List (ℕ × ℕ)) : SGraph :=
  if countTrue omb = 100 then identGraph ob omb rb rmb pb
  else
    let c := countTrue omb
    let F_n_org := maskSelect ob omb
    { numNodes := 1 + c
      ndataFn := F_n_org ++ [vecMeanL F_n_org]
      edges := maskSelect pb rmb ++ (List.range c).map (fun s => (s, c)) ++
        (List.range c).map (fun s => (c, s))
      edataFe := maskSelect rb rmb ++ List.replicate (c * 2) (vecMeanL (maskSelect rb rmb)) }

theorem aug5_sample_fst (r : List (List QVec)) (rm : List (List Bool))
    (pairs : List (List (ℕ × ℕ))) (st : BuildState) (b : ℕ) :
    (aug5_sample r rm pairs st b).1 =
      aug5_graph (st.o.getD b []) (st.om.getD b []) (r.getD b []) (rm.getD b [])
        (pairs.getD b []) := by
  simp only [aug5_sample, aug5_graph]
  by_cases h : countTrue (st.om.getD b []) = 100
  · rw [if_pos h, if_pos h]
  · rw [if_neg h, if_neg h]

-- the augmentation == 5 step only writes back into its own sample row
theorem aug5_sample_snd_ne (r : List (List QVec)) (rm : List (List Bool))
    (pairs : List (List (ℕ × ℕ))) (st : BuildState) (b b2 : ℕ) (hne : b2 ≠ b) :
    (aug5_sample r rm pairs st b).2.o.getD b2 [] = st.o.getD b2 [] ∧
    (aug5_sample r rm pairs st b).2.om.getD b2 [] = st.om.getD b2 [] := by
  simp only [aug5_sample]
  by_cases h : countTrue (st.om.getD b []) = 100
  · rw [if_pos h]
    exact ⟨rfl, rfl⟩
  · rw [if_neg h]
    constructor
    · show (st.o.set b _).getD b2 [] = st.o.getD b2 []
      rw [List.getD_eq_getElem?_getD, List.getElem?_set_ne (by omega),
        List.getD_eq_getElem?_getD]
    · show (st.om.set b _).getD b2 [] = st.om.getD b2 []
      rw [List.getD_eq_getElem?_getD, List.getElem?_set_ne (by omega),
        List.getD_eq_getElem?_getD]

-- over a strictly increasing index list (beam size one), the augmentation 5
-- loop produces exactly the per-sample graphs of the original o and om
theorem buildGo_aug5_map (r : List (List QVec)) (rm : List (List Bool))
    (pairs : List (List (ℕ × ℕ))) :
    ∀ (bs : List ℕ) (st : BuildState), bs.Pairwise (fun a b2 => a < b2) →
      (buildGo (aug5_sample r rm pairs) bs st).1 =
        bs.map (fun b => aug5_graph (st.o.getD b []) (st.om.getD b []) (r.getD b [])
          (rm.getD b []) (pairs.getD b [])) := by
  intro bs
  induction bs with
  | nil => intro st _; rfl
  | cons b bs ih =>
    intro st hp
    have hlt : ∀ y ∈ bs, b < y := (List.pairwise_cons.mp hp).1
    have hp2 := (List.pairwise_cons.mp hp).2
    simp only [buildGo, List.map_cons]
    rw [aug5_sample_fst, ih _ hp2]
    congr 1
    apply List.map_congr_left
    intro y hy
    have hne : y ≠ b := by have := hlt y hy; omega
    rw [(aug5_sample_snd_ne r rm pairs st b y hne).1,
      (aug5_sample_snd_ne r rm pairs st b y hne).2]

/-- C7: graph building with augmentation code 5 (global node): for a sample
with exactly 100 masked-in objects the insertion is skipped and the identity
graph is built; for a sample with fewer than 100 masked-in objects the graph
has exactly one more node than the identity graph, the new node's feature is
the mean of the original node features, the new node is connected
bidirectionally to every original node by 2 times (original node count) new
edges, and every new edge carries the mean of the original relation
features. -/
theorem global_node_build_per_sample (u : ℕ → ℚ) (o : List (List QVec))
    (om : List (List Bool)) (r : List (List QVec)) (rm : List (List Bool))
    (pairs : List (List (ℕ × ℕ))) (ep np ap : ℚ)
    (gs : List SGraph) (o2 : List (List QVec)) (om2 : List (List Bool)) (b : ℕ)
    (hres : create_batched_graphs_augmented u o om r rm pairs 1 5 ep np ap =
      Except.ok (gs, o2, om2))
    (hb : b < o.length) :
    gs.length = o.length ∧
    (countTrue (om.getD b []) = 100 →
      gs.getD b emptySGraph = identGraph (o.getD b []) (om.getD b []) (r.getD b [])
        (rm.getD b []) (pairs.getD b [])) ∧
    (countTrue (om.getD b []) < 100 →
      (gs.getD b emptySGraph).numNodes = countTrue (om.getD b []) + 1 ∧
      (gs.getD b emptySGraph).ndataFn =
        maskSelect (o.getD b []) (om.getD b []) ++
          [vecMeanL (maskSelect (o.getD b []) (om.getD b []))] ∧
      (gs.getD b emptySGraph).edges =
        maskSelect (pairs.getD b []) (rm.getD b []) ++
          (List.range (countTrue (om.getD b []))).map
            (fun s => (s, countTrue (om.getD b []))) ++
          (List.range (countTrue (om.getD b []))).map
            (fun s => (countTrue (om.getD b []), s)) ∧
      (gs.getD b emptySGraph).edataFe =
        maskSelect (r.getD b []) (rm.getD b []) ++
          List.replicate (countTrue (om.getD b []) * 2)
            (vecMeanL (maskSelect (r.getD b []) (rm.getD b []))) ∧
      ((rm.getD b []).length = (pairs.getD b []).length →
        (gs.getD b emptySGraph).edges.length =
          countTrue (rm.getD b []) + 2 * countTrue (om.getD b []))) := by
  have hcomp : create_batched_graphs_augmented u o om r rm pairs 1 5 ep np ap =
      Except.ok ((List.range o.length).map
        (fun b2 => aug5_graph (o.getD b2 []) (om.getD b2 []) (r.getD b2 [])
          (rm.getD b2 []) (pairs.getD b2 [])),
        (buildGo (aug5_sample r rm pairs) (List.range o.length)
          { o := o, om := om, ctr := 0 }).2.o,
        (buildGo (aug5_sample r rm pairs) (List.range o.length)
          { o := o, om := om, ctr := 0 }).2.om) := by
    simp only [create_batched_graphs_augmented]
    rw [if_neg (by omega), if_neg (by omega), if_neg (by omega), if_neg (by omega),
      if_neg (by omega), if_pos trivial, sampleBeamIdx_one,
      buildGo_aug5_map r rm pairs (List.range o.length) _ (List.pairwise_lt_range _)]
  rw [hcomp] at hres
  cases hres
  have hget : ((List.range o.length).map
      (fun b2 => aug5_graph (o.getD b2 []) (om.getD b2 []) (r.getD b2 [])
        (rm.getD b2 []) (pairs.getD b2 []))).getD b emptySGraph =
      aug5_graph (o.getD b []) (om.getD b []) (r.getD b []) (rm.getD b [])
        (pairs.getD b []) :=
    getD_map_range _ _ _ hb _
  refine ⟨by simp, ?_, ?_⟩
  · intro h100
    rw [hget]
    simp only [aug5_graph]
    rw [if_pos h100]
  · intro hlt
    have hne : ¬ countTrue (om.getD b []) = 100 := by omega
    rw [hget]
    simp only [aug5_graph]
    rw [if_neg hne]
    refine ⟨Nat.add_comm 1 _, rfl, rfl, rfl, ?_⟩
    intro hlen
    simp only [List.length_append, List.length_map, List.length_range,
      maskSelect_length _ _ hlen.symm]
    omega

-- decidable equality on Except values, used to evaluate builder results on
-- concrete witness inputs
instance exceptDecEq {e a : Type} [DecidableEq e] [DecidableEq a] :
    DecidableEq (Except e a) := fun x y =>
  match x, y with
  | Except.ok v, Except.ok w =>
    if h : v = w then isTrue (by rw [h]) else isFalse (by intro hc; cases hc; exact h rfl)
  | Except.error v, Except.error w =>
    if h : v = w then isTrue (by rw [h]) else isFalse (by intro hc; cases hc; exact h rfl)
  | Except.ok _, Except.error _ => isFalse (by intro hc; cases hc)
  | Except.error _, Except.ok _ => isFalse (by intro hc; cases hc)

-- the expected global-node graph of the witness sample below: one real
-- node, one synthetic mean node, one original self-loop edge and two
-- synthetic edges carrying the mean relation feature
def aug5WitnessGraph : SGraph :=
  { numNodes := 2, ndataFn := [[1], [1]], edges := [(0, 0), (0, 1), (1, 0)],
    edataFe := [[4], [4], [4]] }

unseal Rat.add Rat.mul Rat.inv Nat.gcd in
/-- Witness for global_node_build_per_sample: one sample with one masked-in
object (fewer than 100), one relation. -/
theorem global_node_build_per_sample_witness :
    [aug5WitnessGraph].length = [[[1], [3]]].length ∧
    (countTrue ([[true, false]].getD 0 []) = 100 →
      [aug5WitnessGraph].getD 0 emptySGraph =
        identGraph ([[[1], [3]]].getD 0 []) ([[true, false]].getD 0 [])
          ([[[4]]].getD 0 []) ([[true]].getD 0 []) ([[(0, 0)]].getD 0 [])) ∧
    (countTrue ([[true, false]].getD 0 []) < 100 →
      ([aug5WitnessGraph].getD 0 emptySGraph).numNodes =
        countTrue ([[true, false]].getD 0 []) + 1 ∧
      ([aug5WitnessGraph].getD 0 emptySGraph).ndataFn =
        maskSelect ([[[1], [3]]].getD 0 []) ([[true, false]].getD 0 []) ++
          [vecMeanL (maskSelect ([[[1], [3]]].getD 0 []) ([[true, false]].getD 0 []))] ∧
      ([aug5WitnessGraph].getD 0 emptySGraph).edges =
        maskSelect ([[(0, 0)]].getD 0 []) ([[true]].getD 0 []) ++
          (List.range (countTrue ([[true, false]].getD 0 []))).map
            (fun s => (s, countTrue ([[true, false]].getD 0 []))) ++
          (List.range (countTrue ([[true, false]].getD 0 []))).map
            (fun s => (countTrue ([[true, false]].getD 0 []), s)) ∧
      ([aug5WitnessGraph].getD 0 emptySGraph).edataFe =
        maskSelect ([[[4]]].getD 0 []) ([[true]].getD 0 []) ++
          List.replicate (countTrue ([[true, false]].getD 0 []) * 2)
            (vecMeanL (maskSelect ([[[4]]].getD 0 []) ([[true]].getD 0 []))) ∧
      (([[true]].getD 0 []).length = ([[(0, 0)]].getD 0 []).length →
        ([aug5WitnessGraph].getD 0 emptySGraph).edges.length =
          countTrue ([[true]].getD 0 []) + 2 * countTrue ([[true, false]].getD 0 []))) :=
  global_node_build_per_sample (fun _ => 0) [[[1], [3]]] [[true, false]] [[[4]]]
    [[true]] [[(0, 0)]] 0 0 0 [aug5WitnessGraph] [[[1], [1]]] [[true, true]] 0
    (by decide) (by decide)

theorem getD_map_lt {α β : Type} (f : α → β) (l : List α) (k : ℕ) (hk : k < l.length)
    (d : β) (d2 : α) : (l.map f).getD k d = f (l.getD k d2) := by
  rw [List.getD_eq_getElem?_getD, List.getElem?_map, List.getElem?_eq_getElem hk,
    List.getD_eq_getElem?_getD, List.getElem?_eq_getElem hk]
  rfl

def sumTake (counts : List ℕ) (k : ℕ) : ℕ := (counts.take k).sum

theorem splitCounts_length {α : Type} :
    ∀ (counts : List ℕ) (l : List α), (splitCounts l counts).length = counts.length := by
  intro counts
  induction counts with
  | nil => intro l; rfl
  | cons c cs ih =>
    intro l
    show (l.take c :: splitCounts (l.drop c) cs).length = cs.length + 1
    simp [ih]

theorem splitCounts_getD {α : Type} :
    ∀ (counts : List ℕ) (l : List α) (k : ℕ), k < counts.length →
      (splitCounts l counts).getD k [] = (l.drop (sumTake counts k)).take (counts.getD k 0) := by
  intro counts
  induction counts with
  | nil => intro l k hk; simp at hk
  | cons c cs ih =>
    intro l k hk
    cases k with
    | zero =>
      show l.take c = (l.drop (sumTake (c :: cs) 0)).take c
      simp [sumTake]
    | succ k =>
      show (splitCounts (l.drop c) cs).getD k [] = _
      rw [ih (l.drop c) k (by simpa using hk)]
      have hdrop : (l.drop c).drop (sumTake cs k) = l.drop (sumTake (c :: cs) (k + 1)) := by
        rw [List.drop_drop]
        have heq : c + sumTake cs k = sumTake (c :: cs) (k + 1) := by
          simp [sumTake, List.take_succ_cons]
        rw [heq]
      rw [hdrop]
      rfl

theorem splitCounts_lengths {α : Type} :
    ∀ (counts : List ℕ) (l : List α), counts.sum = l.length →
      (splitCounts l counts).map List.length = counts := by
  intro counts
  induction counts with
  | nil => intro l _; rfl
  | cons c cs ih =>
    intro l hsum
    have hcle : c ≤ l.length := by
      simp [List.sum_cons] at hsum
      omega
    show (l.take c).length :: (splitCounts (l.drop c) cs).map List.length = c :: cs
    rw [List.length_take, Nat.min_eq_left hcle, ih (l.drop c) ?_]
    rw [List.length_drop]
    simp [List.sum_cons] at hsum
    omega

theorem splitCounts_row_length {α : Type} (counts : List ℕ) (l : List α)
    (hsum : counts.sum = l.length) (k : ℕ) (hk : k < counts.length) :
    ((splitCounts l counts).getD k []).length = counts.getD k 0 := by
  have hmap := splitCounts_lengths counts l hsum
  have hklen : k < (splitCounts l counts).length := by
    rw [splitCounts_length]; exact hk
  have := getD_map_lt List.length (splitCounts l counts) k hklen 0 []
  rw [hmap] at this
  exact this.symm

/-- C4: for every batched graph with zero edges, ContextGAT.forward skips
all message passing and returns node features equal to the input node
features F_n, re-split per sample by the given node counts and right-padded
with zero vectors to the maximum node count: sample k's row block is exactly
its input segment of F_n followed by padding. -/
theorem cgat_zero_edges_passthrough (expf : ℚ → ℚ) (cg : ContextGAT)
    (input_hidden : List QVec) (G : BatchedGraphs) (bnn : List ℕ) (k : ℕ)
    (hE : G.edges = [])
    (hsum : bnn.sum = G.ndataFn.length)
    (hk : k < bnn.length) :
    (ContextGAT.forward expf cg input_hidden G (some bnn)).1 =
      padSeq cg.feature_dim (splitCounts G.ndataFn bnn) ∧
    ((ContextGAT.forward expf cg input_hidden G (some bnn)).1).getD k [] =
      (G.ndataFn.drop (sumTake bnn k)).take (bnn.getD k 0) ++
        List.replicate (listMaxN bnn - bnn.getD k 0) (zeroV cg.feature_dim) := by
  have hfwd : (ContextGAT.forward expf cg input_hidden G (some bnn)).1 =
      padSeq cg.feature_dim (splitCounts G.ndataFn bnn) := by
    simp [ContextGAT.forward, hE]
  refine ⟨hfwd, ?_⟩
  rw [hfwd]
  have hlens := splitCounts_lengths bnn G.ndataFn hsum
  have hklen : k < (splitCounts G.ndataFn bnn).length := by
    rw [splitCounts_length]; exact hk
  simp only [padSeq]
  rw [hlens, getD_map_lt _ _ k hklen _ [],
    splitCounts_row_length bnn G.ndataFn hsum k hk,
    splitCounts_getD bnn G.ndataFn k hk]

-- fixed concrete ContextGAT instance used by witnesses and counterexamples
def cgatWitnessCG : ContextGAT :=
  { context_dim := 1
    feature_dim := 1
    use_obj_info := true
    use_rel_info := true
    k_update_steps := 1
    update_relations := true
    input_proj := fun v => v
    object_score := fun v => vsumQ v
    relation_score := fun v => vsumQ v
    linear_phi_edge := fun v => v
    linear_phi_node := fun v => v }

-- a concrete two-sample batched graph with three nodes and zero edges
def cgatWitnessG : BatchedGraphs :=
  { batchNumNodes := [2, 1]
    batchNumEdges := [0, 0]
    ndataFn := [[1], [2], [3]]
    edges := []
    edataFe := [] }

unseal Rat.add Rat.mul Rat.inv Nat.gcd in
/-- Witness for cgat_zero_edges_passthrough: two samples with node counts
[2, 1]; the second sample's row block is its single node feature padded with
one zero vector. -/
theorem cgat_zero_edges_passthrough_witness :
    (ContextGAT.forward (fun _ => 1) cgatWitnessCG [[0], [0]] cgatWitnessG
      (some [2, 1])).1 =
      padSeq cgatWitnessCG.feature_dim (splitCounts cgatWitnessG.ndataFn [2, 1]) ∧
    ((ContextGAT.forward (fun _ => 1) cgatWitnessCG [[0], [0]] cgatWitnessG
      (some [2, 1])).1).getD 1 [] =
      (cgatWitnessG.ndataFn.drop (sumTake [2, 1] 1)).take ([2, 1].getD 1 0) ++
        List.replicate (listMaxN [2, 1] - [2, 1].getD 1 0)
          (zeroV cgatWitnessCG.feature_dim) :=
  cgat_zero_edges_passthrough (fun _ => 1) cgatWitnessCG [[0], [0]] cgatWitnessG
    [2, 1] 1 (by rfl) (by decide) (by decide)

-- a one-node, zero-edge batched graph whose single node feature [1, -1] is
-- not identically zero but sums to zero
def cgatMaskG : BatchedGraphs :=
  { batchNumNodes := [1]
    batchNumEdges := [0]
    ndataFn := [[1, -1]]
    edges := []
    edataFe := [] }

unseal Rat.add Rat.mul Rat.inv Nat.gcd in
/-- C2 counterexample: on this concrete ContextGAT forward call the output
row is [1, -1], which is not identically zero, yet the returned mask marks
it not-real (false), because the code tests the SUM of the row rather than
whether the row is identically zero. This falsifies the claim that the mask
marks a row real if and only if the row is not identically zero. -/
theorem cgat_mask_counterexample :
    (ContextGAT.forward (fun _ => 1) cgatWitnessCG [[0]] cgatMaskG (some [1])).1 =
      [[[1, -1]]] ∧
    (ContextGAT.forward (fun _ => 1) cgatWitnessCG [[0]] cgatMaskG (some [1])).2 =
      [[false]] ∧
    ¬ ([1, -1] : QVec) = zeroV 2 := by
  refine ⟨by decide, by decide, by decide⟩

/-- C2 (amended): the returned mask marks a row of the padded output real if
and only if the sum of the row's feature components is nonzero; hence every
padding row (all zeros) is marked not-real and every real-marked row is not
identically zero, but a nonzero row whose components sum to zero is also
marked not-real. -/
theorem cgat_mask_sum_criterion (expf : ℚ → ℚ) (cg : ContextGAT)
    (input_hidden : List QVec) (G : BatchedGraphs) (bnn : Option (List ℕ)) (k j : ℕ) :
    ((((ContextGAT.forward expf cg input_hidden G bnn).2).getD k []).getD j false = true ↔
      vsumQ ((((ContextGAT.forward expf cg input_hidden G bnn).1).getD k []).getD j []) ≠ 0) ∧
    ((((ContextGAT.forward expf cg input_hidden G bnn).2).getD k []).getD j false = true →
      ¬ ∀ x ∈ (((ContextGAT.forward expf cg input_hidden G bnn).1).getD k []).getD j [],
        x = 0) := by
  have hm : (ContextGAT.forward expf cg input_hidden G bnn).2 =
      ((ContextGAT.forward expf cg input_hidden G bnn).1).map
        (List.map (fun v => decide (vsumQ v ≠ 0))) := rfl
  set io := (ContextGAT.forward expf cg input_hidden G bnn).1 with hio
  rw [hm]
  have hrow : ((io.map (List.map (fun v => decide (vsumQ v ≠ 0)))).getD k []).getD j false =
      decide (vsumQ ((io.getD k []).getD j []) ≠ 0) := by
    by_cases hk : k < io.length
    · rw [getD_map_lt _ io k hk _ []]
      by_cases hj : j < (io.getD k []).length
      · rw [getD_map_lt _ _ j hj _ []]
      · have hj2 : (io.getD k []).length ≤ j := Nat.le_of_not_lt hj
        have h1 : ((io.getD k []).map (fun v => decide (vsumQ v ≠ 0))).getD j false = false :=
          List.getD_eq_default _ _ (by simpa using hj2)
        have h2 : (io.getD k []).getD j [] = ([] : QVec) := List.getD_eq_default _ _ hj2
        rw [h1, h2]
        simp [vsumQ]
    · have hk2 : io.length ≤ k := Nat.le_of_not_lt hk
      have h1 : (io.map (List.map (fun v => decide (vsumQ v ≠ 0)))).getD k [] =
          ([] : List Bool) := List.getD_eq_default _ _ (by simpa using hk2)
      have h2 : io.getD k [] = ([] : List QVec) := List.getD_eq_default _ _ hk2
      rw [h1, h2]
      simp [vsumQ]
  rw [hrow]
  constructor
  · exact decide_eq_true_iff
  · intro h hall
    have hz : vsumQ ((io.getD k []).getD j []) = 0 := List.sum_eq_zero hall
    rw [hz] at h
    simp at h

unseal Rat.add Rat.mul Rat.inv Nat.gcd in
/-- Witness for cgat_mask_sum_criterion: on a concrete call whose first
output row is [1] the mask is real, and the theorem yields that the row is
not identically zero. -/
theorem cgat_mask_sum_criterion_witness :
    ¬ ∀ x ∈ (((ContextGAT.forward (fun _ => 1) cgatWitnessCG [[0], [0]] cgatWitnessG
        (some [2, 1])).1).getD 0 []).getD 0 [], x = 0 :=
  (cgat_mask_sum_criterion (fun _ => 1) cgatWitnessCG [[0], [0]] cgatWitnessG
    (some [2, 1]) 0 0).2 (by decide)

-- models.py lines 444-562, _schedule_sampleing decode-policy control:
-- embIsTeacher records whether the local variable embeddings currently
-- holds teacher_force_embeddings, the ground-truth caption embeddings (it
-- does initially, lines 496-498), and sampled_teacher_force is the branch
-- flag, unbound (none) before the first iteration; the tensor computations
-- of the loop body are those of the teacher-forcing pipeline and are not
-- repeated in this control model
structure SSControl where
  embIsTeacher : Bool
  sampled_teacher_force : Option Bool

def ssInit : SSControl := { embIsTeacher := true, sampled_teacher_force := none }

-- one loop iteration: the branch guard of line 518 is
-- `t == 0 or sampled_teacher_force` (the or short-circuits at t == 0, so
-- the unbound flag is never read there), and the loop tail (lines 554-561)
-- is governed by the constant test `if 1:`, which always reinstates the
-- teacher-forced state; the emitted pair is (guard value, whether the
-- embeddings used this step are the ground-truth ones)
def ssStep (t : ℕ) (st : SSControl) : (Bool × Bool) × SSControl :=
  let cond := (t == 0) || st.sampled_teacher_force.getD false
  let st2 := if (1 : ℕ) != 0 then
      { embIsTeacher := true, sampled_teacher_force := some true }
    else
      { embIsTeacher := false, sampled_teacher_force := some false }
  ((cond, st.embIsTeacher), st2)

def ssRunGo : List ℕ → SSControl → List (Bool × Bool)
  | [], _ => []
  | t :: ts, st =>
    let p := ssStep t st
    p.1 :: ssRunGo ts p.2

-- the per-timestep log over the max(decode_lengths) loop iterations
def scheduleSamplingControl (T : ℕ) : List (Bool × Bool) :=
  ssRunGo (List.range T) ssInit

theorem ssRunGo_teacher : ∀ (ts : List ℕ),
    (ssRunGo ts { embIsTeacher := true, sampled_teacher_force := some true }).all
      (fun p2 => p2.1 && p2.2) = true := by
  intro ts
  induction ts with
  | nil => rfl
  | cons t ts ih => simp [ssRunGo, ssStep, List.all_cons, ih]

/-- C8: in the scheduled-sampling decode path the condition selecting the
teacher-forced branch is true at every timestep and the next-token
embedding is always taken from the ground-truth caption embeddings, so the
branch that feeds back the model's own predicted token is never
executed. -/
theorem schedule_sampling_always_teacher_forced (T : ℕ) :
    (scheduleSamplingControl T).all (fun p2 => p2.1 && p2.2) = true := by
  cases T with
  | zero => rfl
  | succ n =>
    simp only [scheduleSamplingControl, List.range_succ_eq_map]
    simp [ssRunGo, ssStep, ssInit, ssRunGo_teacher]

-- torch.sort(descending=True) on the caption lengths: an index permutation
-- placing the lengths in non-increasing order (insertion sort on indices;
-- the claims do not depend on the tie order)
def insertIdxDesc (lens : List ℕ) (i : ℕ) : List ℕ → List ℕ
  | [] => [i]
  | j :: js => if lens.getD j 0 < lens.getD i 0 then i :: j :: js else j :: insertIdxDesc lens i js

def sortIndices (lens : List ℕ) : List ℕ :=
  (List.range lens.length).foldr (insertIdxDesc lens) []

-- tensor[sort_ind] : gather along the batch dimension
def indexSelect {α : Type} (si : List ℕ) (l : List α) (dflt : α) : List α :=
  si.map (fun i => l.getD i dflt)

-- python max() over a nonempty list (0 on the empty list, where the source
-- would raise)
def listMaxZ : List ℤ → ℤ
  | [] => 0
  | x :: xs => xs.foldl max x

-- torch.cat([o, r], 1).sum(1) / torch.cat([om, rm], 1).sum(1): the summed
-- object and relation rows (masked or not) divided by the mask true count
def graphFeaturesMeanOf (o r : List (List QVec)) (om rm : List (List Bool)) : List QVec :=
  (List.range o.length).map (fun b =>
    let rows := (o.getD b []) ++ (r.getD b [])
    let cnt := countTrue (om.getD b []) + countTrue (rm.getD b [])
    (rows.foldr vaddPad []).map (fun x => x / (cnt : ℚ)))

-- preds.max(1)[1] : index of the (first) maximal entry of a row
def argmaxGo : List ℚ → ℕ → ℕ → ℚ → ℕ
  | [], _, bi, _ => bi
  | x :: xs, i, bi, bv => if bv < x then argmaxGo xs (i + 1) i x else argmaxGo xs (i + 1) bi bv

def argmaxIdx : QVec → ℕ
  | [] => 0
  | x :: xs => argmaxGo xs 1 0 x

-- models.py, class cascade_sg_first_contextGAT_Decoder: configuration
-- values plus the learned sub-modules as function-valued fields;
-- word_map_start models self.word_map of key <start>
structure cascade_sg_first_contextGAT_Decoder where
  attention_dim : ℕ
  embed_dim : ℕ
  decoder_dim : ℕ
  vocab_size : ℕ
  features_dim : ℕ
  graph_features_dim : ℕ
  augmentation : ℕ
  edge_drop_prob : ℚ
  node_drop_prob : ℚ
  attr_drop_prob : ℚ
  word_map_start : ℕ
  teacher_force : Bool
  context_gat : ContextGAT
  cascade1_attention : Attention
  cascade2_attention : Attention
  embedding : ℕ → QVec
  top_down_attention : QVec → QVec × QVec → QVec × QVec
  language_model : QVec → QVec × QVec → QVec × QVec
  fc1 : QVec → QVec
  fc : QVec → QVec
  dropout : QVec → QVec

abbrev PredBuf := ℕ → ℕ → QVec

-- the two prediction buffers are zero-initialised tensors of shape
-- (batch_size, max(decode_lengths), vocab_size), modelled as functions of
-- (sample index, timestep); the five-tuple is the decoder forward return
abbrev DecOut := PredBuf × PredBuf × List (List ℕ) × List ℤ × List ℕ

-- batch_size_t = sum([l > t for l in decode_lengths])
def batchSizeAt (dl : List ℤ) (t : ℕ) : ℕ :=
  dl.countP (fun l => decide ((t : ℤ) < l))

-- predictions[:batch_size_t, t, :] = preds
def writeAt (P : PredBuf) (t bsz : ℕ) (vals : List QVec) : PredBuf :=
  fun i t2 => if i < bsz ∧ t2 = t then vals.getD i [] else P i t2

-- models.py lines 314-321: reconcile the padded ContextGAT output with the
-- fixed-width object tensor; cgat_obj is zeros_like(of) with the cgat
-- output copied into the leading slots, cgat_mask likewise, and every slot
-- that is object-mask valid but cgat-mask invalid keeps its original row
def cgatReconcile (cgat_out : List (List QVec)) (cgat_mask_out : List (List Bool))
    (of : List (List QVec)) (om : List (List Bool)) : List (List QVec) :=
  let W := (cgat_out.headD []).length
  let Wm := (cgat_mask_out.headD []).length
  (List.range of.length).map (fun i =>
    let ofRow := of.getD i []
    let omRow := om.getD i []
    let cgRow := cgat_out.getD i []
    let cmRow := cgat_mask_out.getD i []
    let Do := (ofRow.headD []).length
    (List.range ofRow.length).map (fun s =>
      let cgVal := if s < W then cgRow.getD s [] else zeroV Do
      let cmVal := decide (s < Wm) && cmRow.getD s false
      if !cmVal && omRow.getD s false then ofRow.getD s [] else cgVal))

-- the per-forward-call constants of the decode loop: the learned
-- sub-modules the loop body reads through self, the built graphs, the
-- sorted input tensors and the decode lengths
structure DecCtx where
  expf : ℚ → ℚ
  context_gat : ContextGAT
  cascade1_attention : Attention
  cascade2_attention : Attention
  embedding : ℕ → QVec
  top_down_attention : QVec → QVec × QVec → QVec × QVec
  language_model : QVec → QVec × QVec → QVec × QVec
  fc1 : QVec → QVec
  fc : QVec → QVec
  dropout : QVec → QVec
  g : List SGraph
  image_features : List (List QVec)
  image_features_mean : List QVec
  graph_features_mean : List QVec
  object_features : List (List QVec)
  object_mask : List (List Bool)
  decode_lengths : List ℤ

structure DecState where
  h1 : List QVec
  c1 : List QVec
  h2 : List QVec
  c2 : List QVec
  predictions : PredBuf
  predictions1 : PredBuf

-- models.py lines 303-335: one timestep of _forward_with_teacher_forcing;
-- the LSTM cells are applied row-wise to the truncated batch, the input
-- embedding row is embeddings[:batch_size_t, t, :]
def _tf_step (ctx : DecCtx) (embT : List (List QVec)) (t : ℕ) (s : DecState) : DecState :=
  let batch_size_t := batchSizeAt ctx.decode_lengths t
  let sub_g := dglBatch (ctx.g.take batch_size_t)
  let hc1 := (List.range batch_size_t).map (fun i =>
    ctx.top_down_attention
      ((s.h2.getD i []) ++ (ctx.image_features_mean.getD i []) ++
        (ctx.graph_features_mean.getD i []) ++ ((embT.getD i []).getD t []))
      (s.h1.getD i [], s.c1.getD i []))
  let h1 := hc1.map Prod.fst
  let c1 := hc1.map Prod.snd
  let cgo := ContextGAT.forward ctx.expf ctx.context_gat h1 sub_g
    (some sub_g.batchNumNodes)
  let of := ctx.object_features.take batch_size_t
  let om := ctx.object_mask.take batch_size_t
  let cgat_obj := cgatReconcile cgo.1 cgo.2 of om
  let graph_weighted_enc := (List.range batch_size_t).map (fun i =>
    Attention.forward ctx.expf ctx.cascade1_attention (cgat_obj.getD i [])
      (h1.getD i []) (some (om.getD i [])))
  let img_weighted_enc := (List.range batch_size_t).map (fun i =>
    Attention.forward ctx.expf ctx.cascade2_attention
      ((ctx.image_features.take batch_size_t).getD i [])
      ((h1.getD i []) ++ (graph_weighted_enc.getD i [])) none)
  let preds1 := h1.map (fun h => ctx.fc1 (ctx.dropout h))
  let hc2 := (List.range batch_size_t).map (fun i =>
    ctx.language_model
      ((graph_weighted_enc.getD i []) ++ (img_weighted_enc.getD i []) ++ (h1.getD i []))
      (s.h2.getD i [], s.c2.getD i []))
  let h2 := hc2.map Prod.fst
  let c2 := hc2.map Prod.snd
  let preds := h2.map (fun h => ctx.fc (ctx.dropout h))
  { h1 := h1, c1 := c1, h2 := h2, c2 := c2,
    predictions := writeAt s.predictions t batch_size_t preds,
    predictions1 := writeAt s.predictions1 t batch_size_t preds1 }

def decodeLoopTF (ctx : DecCtx) (embT : List (List QVec)) :
    List ℕ → DecState → DecState
  | [], s => s
  | t :: ts, s => decodeLoopTF ctx embT ts (_tf_step ctx embT t s)

-- models.py lines 235-336, _forward_with_teacher_forcing; caption_lengths
-- is taken already squeezed to one length per sample; u is the uniform
-- random stream behind the builder's torch.bernoulli calls
def _forward_with_teacher_forcing (expf : ℚ → ℚ) (u : ℕ → ℚ)
    (d : cascade_sg_first_contextGAT_Decoder) (training : Bool)
    (image_features object_features relation_features : List (List QVec))
    (object_mask relation_mask : List (List Bool))
    (pair_ids : List (List (ℕ × ℕ)))
    (encoded_captions : List (List ℕ)) (caption_lengths : List ℕ) :
    Except String DecOut :=
  let batch_size := image_features.length
  let image_features_mean := image_features.map vecMeanL
  let graph_features_mean :=
    graphFeaturesMeanOf object_features relation_features object_mask relation_mask
  let sort_ind := sortIndices caption_lengths
  let caption_lengths2 := indexSelect sort_ind caption_lengths 0
  let image_features2 := indexSelect sort_ind image_features []
  let object_features2 := indexSelect sort_ind object_features []
  let object_mask2 := indexSelect sort_ind object_mask []
  let relation_features2 := indexSelect sort_ind relation_features []
  let relation_mask2 := indexSelect sort_ind relation_mask []
  let pair_ids2 := indexSelect sort_ind pair_ids []
  let image_features_mean2 := indexSelect sort_ind image_features_mean []
  let graph_features_mean2 := indexSelect sort_ind graph_features_mean []
  let encoded_captions2 := indexSelect sort_ind encoded_captions []
  match (if training then
      create_batched_graphs_augmented u object_features2 object_mask2
        relation_features2 relation_mask2 pair_ids2 1 d.augmentation
        d.edge_drop_prob d.node_drop_prob d.attr_drop_prob
    else
      create_batched_graphs_augmented u object_features2 object_mask2
        relation_features2 relation_mask2 pair_ids2 1 0
        d.edge_drop_prob d.node_drop_prob d.attr_drop_prob) with
  | Except.error e => Except.error e
  | Except.ok goo =>
    let embeddings := encoded_captions2.map (List.map d.embedding)
    let decode_lengths := caption_lengths2.map (fun l => Int.ofNat l - 1)
    let ctx : DecCtx :=
      { expf := expf
        context_gat := d.context_gat
        cascade1_attention := d.cascade1_attention
        cascade2_attention := d.cascade2_attention
        embedding := d.embedding
        top_down_attention := d.top_down_attention
        language_model := d.language_model
        fc1 := d.fc1
        fc := d.fc
        dropout := d.dropout
        g := goo.1
        image_features := image_features2
        image_features_mean := image_features_mean2
        graph_features_mean := graph_features_mean2
        object_features := goo.2.1
        object_mask := goo.2.2
        decode_lengths := decode_lengths }
    let s0 : DecState :=
      { h1 := List.replicate batch_size (zeroV d.decoder_dim)
        c1 := List.replicate batch_size (zeroV d.decoder_dim)
        h2 := List.replicate batch_size (zeroV d.decoder_dim)
        c2 := List.replicate batch_size (zeroV d.decoder_dim)
        predictions := fun _ _ => zeroV d.vocab_size
        predictions1 := fun _ _ => zeroV d.vocab_size }
    let sF := decodeLoopTF ctx embeddings (List.range (listMaxZ decode_lengths).toNat) s0
    Except.ok (sF.predictions, sF.predictions1, encoded_captions2, decode_lengths, sort_ind)

structure NTState where
  h1 : List QVec
  c1 : List QVec
  h2 : List QVec
  c2 : List QVec
  embeddings : List QVec
  predictions : PredBuf
  predictions1 : PredBuf

-- models.py lines 408-441: one timestep of _forward_no_teacher_force; the
-- input embedding is the per-sample current embedding row, and after the
-- write the embeddings are replaced by the embeddings of the argmax tokens
-- of this step's main-head scores
def _nt_step (ctx : DecCtx) (t : ℕ) (s : NTState) : NTState :=
  let batch_size_t := batchSizeAt ctx.decode_lengths t
  let sub_g := dglBatch (ctx.g.take batch_size_t)
  let hc1 := (List.range batch_size_t).map (fun i =>
    ctx.top_down_attention
      ((s.h2.getD i []) ++ (ctx.image_features_mean.getD i []) ++
        (ctx.graph_features_mean.getD i []) ++ (s.embeddings.getD i []))
      (s.h1.getD i [], s.c1.getD i []))
  let h1 := hc1.map Prod.fst
  let c1 := hc1.map Prod.snd
  let cgo := ContextGAT.forward ctx.expf ctx.context_gat h1 sub_g
    (some sub_g.batchNumNodes)
  let of := ctx.object_features.take batch_size_t
  let om := ctx.object_mask.take batch_size_t
  let cgat_obj := cgatReconcile cgo.1 cgo.2 of om
  let graph_weighted_enc := (List.range batch_size_t).map (fun i =>
    Attention.forward ctx.expf ctx.cascade1_attention (cgat_obj.getD i [])
      (h1.getD i []) (some (om.getD i [])))
  let img_weighted_enc := (List.range batch_size_t).map (fun i =>
    Attention.forward ctx.expf ctx.cascade2_attention
      ((ctx.image_features.take batch_size_t).getD i [])
      ((h1.getD i []) ++ (graph_weighted_enc.getD i [])) none)
  let preds1 := h1.map (fun h => ctx.fc1 (ctx.dropout h))
  let hc2 := (List.range batch_size_t).map (fun i =>
    ctx.language_model
      ((graph_weighted_enc.getD i []) ++ (img_weighted_enc.getD i []) ++ (h1.getD i []))
      (s.h2.getD i [], s.c2.getD i []))
  let h2 := hc2.map Prod.fst
  let c2 := hc2.map Prod.snd
  let preds := h2.map (fun h => ctx.fc (ctx.dropout h))
  { h1 := h1, c1 := c1, h2 := h2, c2 := c2,
    embeddings := preds.map (fun p2 => ctx.embedding (argmaxIdx p2)),
    predictions := writeAt s.predictions t batch_size_t preds,
    predictions1 := writeAt s.predictions1 t batch_size_t preds1 }

def decodeLoopNT (ctx : DecCtx) : List ℕ → NTState → NTState
  | [], s => s
  | t :: ts, s => decodeLoopNT ctx ts (_nt_step ctx t s)

-- models.py lines 338-442, _forward_no_teacher_force; note that unlike the
-- teacher-forced path (line 266) this path never applies sort_ind to
-- encoded_captions, and line 442 returns them in the original order
-- although the docstring promises sorted encoded captions
def _forward_no_teacher_force (expf : ℚ → ℚ) (u : ℕ → ℚ)
    (d : cascade_sg_first_contextGAT_Decoder) (training : Bool)
    (image_features object_features relation_features : List (List QVec))
    (object_mask relation_mask : List (List Bool))
    (pair_ids : List (List (ℕ × ℕ)))
    (encoded_captions : List (List ℕ)) (caption_lengths : List ℕ) :
    Except String DecOut :=
  let batch_size := image_features.length
  let image_features_mean := image_features.map vecMeanL
  let graph_features_mean :=
    graphFeaturesMeanOf object_features relation_features object_mask relation_mask
  let sort_ind := sortIndices caption_lengths
  let caption_lengths2 := indexSelect sort_ind caption_lengths 0
  let image_features2 := indexSelect sort_ind image_features []
  let object_features2 := indexSelect sort_ind object_features []
  let object_mask2 := indexSelect sort_ind object_mask []
  let relation_features2 := indexSelect sort_ind relation_features []
  let relation_mask2 := indexSelect sort_ind relation_mask []
  let pair_ids2 := indexSelect sort_ind pair_ids []
  let image_features_mean2 := indexSelect sort_ind image_features_mean []
  let graph_features_mean2 := indexSelect sort_ind graph_features_mean []
  match (if training then
      create_batched_graphs_augmented u object_features2 object_mask2
        relation_features2 relation_mask2 pair_ids2 1 d.augmentation
        d.edge_drop_prob d.node_drop_prob d.attr_drop_prob
    else
      create_batched_graphs_augmented u object_features2 object_mask2
        relation_features2 relation_mask2 pair_ids2 1 0
        d.edge_drop_prob d.node_drop_prob d.attr_drop_prob) with
  | Except.error e => Except.error e
  | Except.ok goo =>
    let decode_lengths := caption_lengths2.map (fun l => Int.ofNat l - 1)
    let ctx : DecCtx :=
      { expf := expf
        context_gat := d.context_gat
        cascade1_attention := d.cascade1_attention
        cascade2_attention := d.cascade2_attention
        embedding := d.embedding
        top_down_attention := d.top_down_attention
        language_model := d.language_model
        fc1 := d.fc1
        fc := d.fc
        dropout := d.dropout
        g := goo.1
        image_features := image_features2
        image_features_mean := image_features_mean2
        graph_features_mean := graph_features_mean2
        object_features := goo.2.1
        object_mask := goo.2.2
        decode_lengths := decode_lengths }
    let s0 : NTState :=
      { h1 := List.replicate batch_size (zeroV d.decoder_dim)
        c1 := List.replicate batch_size (zeroV d.decoder_dim)
        h2 := List.replicate batch_size (zeroV d.decoder_dim)
        c2 := List.replicate batch_size (zeroV d.decoder_dim)
        embeddings := List.replicate batch_size (d.embedding d.word_map_start)
        predictions := fun _ _ => zeroV d.vocab_size
        predictions1 := fun _ _ => zeroV d.vocab_size }
    let sF := decodeLoopNT ctx (List.range (listMaxZ decode_lengths).toNat) s0
    Except.ok (sF.predictions, sF.predictions1, encoded_captions, decode_lengths, sort_ind)

-- models.py lines 219-233, forward: dispatch on self.teacher_force
def cascade_sg_first_contextGAT_Decoder.forward (expf : ℚ → ℚ) (u : ℕ → ℚ)
    (d : cascade_sg_first_contextGAT_Decoder) (training : Bool)
    (image_features object_features relation_features : List (List QVec))
    (object_mask relation_mask : List (List Bool))
    (pair_ids : List (List (ℕ × ℕ)))
    (encoded_captions : List (List ℕ)) (caption_lengths : List ℕ) :
    Except String DecOut :=
  if d.teacher_force then
    _forward_with_teacher_forcing expf u d training image_features object_features
      relation_features object_mask relation_mask pair_ids encoded_captions
      caption_lengths
  else
    _forward_no_teacher_force expf u d training image_features object_features
      relation_features object_mask relation_mask pair_ids encoded_captions
      caption_lengths

-- projections of a decoder forward result (defaults on the error case)
def decPredictions (res : Except String DecOut) : PredBuf :=
  match res with
  | Except.ok r2 => r2.1
  | Except.error _ => fun _ _ => []

def decPredictions1 (res : Except String DecOut) : PredBuf :=
  match res with
  | Except.ok r2 => r2.2.1
  | Except.error _ => fun _ _ => []

def decCaptions (res : Except String DecOut) : List (List ℕ) :=
  match res with
  | Except.ok r2 => r2.2.2.1
  | Except.error _ => []

def decDecodeLengths (res : Except String DecOut) : List ℤ :=
  match res with
  | Except.ok r2 => r2.2.2.2.1
  | Except.error _ => []

def decSortInd (res : Except String DecOut) : List ℕ :=
  match res with
  | Except.ok r2 => r2.2.2.2.2
  | Except.error _ => []

/-- C10: in evaluation mode (training false) both decoder forward paths
build their graphs with augmentation code 0 (identity) regardless of the
configured augmentation value, and the identity branch of the builder never
reads the drop probabilities, so the forward outputs are identical across
any two runs that differ only in the augmentation, edge_drop_prob,
node_drop_prob and attr_drop_prob configuration values (same inputs, same
random stream, same weights). -/
theorem eval_mode_augmentation_invariance (expf : ℚ → ℚ) (u : ℕ → ℚ)
    (d : cascade_sg_first_contextGAT_Decoder) (aug2 : ℕ) (ep2 np2 ap2 : ℚ)
    (image_features object_features relation_features : List (List QVec))
    (object_mask relation_mask : List (List Bool))
    (pair_ids : List (List (ℕ × ℕ)))
    (encoded_captions : List (List ℕ)) (caption_lengths : List ℕ) :
    cascade_sg_first_contextGAT_Decoder.forward expf u { d with augmentation := aug2, edge_drop_prob := ep2, node_drop_prob := np2, attr_drop_prob := ap2 } false
      image_features object_features relation_features object_mask relation_mask
      pair_ids encoded_captions caption_lengths =
    cascade_sg_first_contextGAT_Decoder.forward expf u d false
      image_features object_features relation_features object_mask relation_mask
      pair_ids encoded_captions caption_lengths := by rfl

theorem mem_insertIdxDesc (lens : List ℕ) (i y : ℕ) :
    ∀ (l : List ℕ), y ∈ insertIdxDesc lens i l ↔ y = i ∨ y ∈ l := by
  intro l
  induction l with
  | nil => simp [insertIdxDesc]
  | cons j js ih =>
    simp only [insertIdxDesc]
    by_cases h : lens.getD j 0 < lens.getD i 0
    · rw [if_pos h]
      simp
    · rw [if_neg h]
      simp [ih]
      tauto

theorem pairwise_insertIdxDesc (lens : List ℕ) (i : ℕ) :
    ∀ (l : List ℕ), l.Pairwise (fun a b => lens.getD b 0 ≤ lens.getD a 0) →
      (insertIdxDesc lens i l).Pairwise (fun a b => lens.getD b 0 ≤ lens.getD a 0) := by
  intro l
  induction l with
  | nil => intro _; simp [insertIdxDesc]
  | cons j js ih =>
    intro hp
    rcases List.pairwise_cons.mp hp with ⟨hj, hjs⟩
    simp only [insertIdxDesc]
    by_cases h : lens.getD j 0 < lens.getD i 0
    · rw [if_pos h]
      refine List.pairwise_cons.mpr ⟨?_, hp⟩
      intro y hy
      rcases List.mem_cons.mp hy with rfl | hy
      · exact le_of_lt h
      · exact le_trans (hj y hy) (le_of_lt h)
    · rw [if_neg h]
      refine List.pairwise_cons.mpr ⟨?_, ih hjs⟩
      intro y hy
      rcases (mem_insertIdxDesc lens i y js).mp hy with rfl | hy
      · exact Nat.le_of_not_lt h
      · exact hj y hy

-- the sort indices place the caption lengths in non-increasing order
theorem pairwise_sortIndices (lens : List ℕ) :
    (sortIndices lens).Pairwise (fun a b => lens.getD b 0 ≤ lens.getD a 0) := by
  unfold sortIndices
  suffices h : ∀ l : List ℕ,
      (l.foldr (insertIdxDesc lens) []).Pairwise
        (fun a b => lens.getD b 0 ≤ lens.getD a 0) by
    exact h _
  intro l
  induction l with
  | nil => simp
  | cons a l ih => exact pairwise_insertIdxDesc lens a _ ih

-- the sorted decode lengths are non-increasing
theorem dl_pairwise (lens : List ℕ) :
    ((indexSelect (sortIndices lens) lens 0).map (fun l => Int.ofNat l - 1)).Pairwise
      (fun a b => b ≤ a) := by
  unfold indexSelect
  rw [List.map_map]
  exact (pairwise_sortIndices lens).map _ (fun a b h => by simp only [Function.comp_apply, Int.ofNat_eq_coe]; omega)

-- in a non-increasing list, if entry i is at most t then at most i entries
-- exceed t
theorem desc_count_le (t : ℤ) :
    ∀ (l : List ℤ), l.Pairwise (fun a b => b ≤ a) → ∀ i, l.getD i 0 ≤ t →
      l.countP (fun x => decide (t < x)) ≤ i := by
  intro l
  induction l with
  | nil => intro _ i _; simp
  | cons x xs ih =>
    intro hp i hi
    rcases List.pairwise_cons.mp hp with ⟨hx, hxs⟩
    cases i with
    | zero =>
      have hxt : x ≤ t := by simpa using hi
      have hcnt : xs.countP (fun y => decide (t < y)) = 0 := by
        rw [List.countP_eq_zero]
        intro y hy
        have hyx : y ≤ x := hx y hy
        simp
        omega
      rw [List.countP_cons, hcnt]
      simp
      omega
    | succ i =>
      rw [List.countP_cons]
      have hxi : xs.getD i 0 ≤ t := by simpa using hi
      have hih := ih hxs i hxi
      by_cases h : t < x
      · simp [h]
        omega
      · simp [h]
        omega

theorem batchSizeAt_antitone (dl : List ℤ) (t t2 : ℕ) (h : t ≤ t2) :
    batchSizeAt dl t2 ≤ batchSizeAt dl t := by
  unfold batchSizeAt
  apply List.countP_mono_left
  intro a _ ha
  simp at ha ⊢
  omega

-- a timestep writes only rows below the active batch size, so a row at or
-- beyond the batch size of its own timestep is never touched
theorem tf_step_preserves (ctx : DecCtx) (embT : List (List QVec)) (t : ℕ)
    (s : DecState) (i t2 : ℕ) (hi : batchSizeAt ctx.decode_lengths t2 ≤ i) :
    (_tf_step ctx embT t s).predictions i t2 = s.predictions i t2 ∧
    (_tf_step ctx embT t s).predictions1 i t2 = s.predictions1 i t2 := by
  refine ⟨?_, ?_⟩ <;>
  · simp only [_tf_step, writeAt]
    split
    · rename_i hcond
      rcases hcond with ⟨hlt, rfl⟩
      exact absurd hlt (by omega)
    · rfl

theorem decodeLoopTF_preserves (ctx : DecCtx) (embT : List (List QVec)) :
    ∀ (ts : List ℕ) (s : DecState) (i t2 : ℕ),
      batchSizeAt ctx.decode_lengths t2 ≤ i →
      (decodeLoopTF ctx embT ts s).predictions i t2 = s.predictions i t2 ∧
      (decodeLoopTF ctx embT ts s).predictions1 i t2 = s.predictions1 i t2 := by
  intro ts
  induction ts with
  | nil => intro s i t2 _; exact ⟨rfl, rfl⟩
  | cons t ts ih =>
    intro s i t2 hi
    have hstep := tf_step_preserves ctx embT t s i t2 hi
    have hrec := ih (_tf_step ctx embT t s) i t2 hi
    exact ⟨hrec.1.trans hstep.1, hrec.2.trans hstep.2⟩

theorem nt_step_preserves (ctx : DecCtx) (t : ℕ)
    (s : NTState) (i t2 : ℕ) (hi : batchSizeAt ctx.decode_lengths t2 ≤ i) :
    (_nt_step ctx t s).predictions i t2 = s.predictions i t2 ∧
    (_nt_step ctx t s).predictions1 i t2 = s.predictions1 i t2 := by
  refine ⟨?_, ?_⟩ <;>
  · simp only [_nt_step, writeAt]
    split
    · rename_i hcond
      rcases hcond with ⟨hlt, rfl⟩
      exact absurd hlt (by omega)
    · rfl

theorem decodeLoopNT_preserves (ctx : DecCtx) :
    ∀ (ts : List ℕ) (s : NTState) (i t2 : ℕ),
      batchSizeAt ctx.decode_lengths t2 ≤ i →
      (decodeLoopNT ctx ts s).predictions i t2 = s.predictions i t2 ∧
      (decodeLoopNT ctx ts s).predictions1 i t2 = s.predictions1 i t2 := by
  intro ts
  induction ts with
  | nil => intro s i t2 _; exact ⟨rfl, rfl⟩
  | cons t ts ih =>
    intro s i t2 hi
    have hstep := nt_step_preserves ctx t s i t2 hi
    have hrec := ih (_nt_step ctx t s) i t2 hi
    exact ⟨hrec.1.trans hstep.1, hrec.2.trans hstep.2⟩

-- the teacher-forced path: the returned decode lengths are the sorted
-- caption lengths minus one, and rows whose decode length has expired stay
-- at the zero initialisation of the prediction buffers
theorem tf_path_invariants (expf : ℚ → ℚ) (u : ℕ → ℚ)
    (d : cascade_sg_first_contextGAT_Decoder) (training : Bool)
    (image_features object_features relation_features : List (List QVec))
    (object_mask relation_mask : List (List Bool))
    (pair_ids : List (List (ℕ × ℕ)))
    (encoded_captions : List (List ℕ)) (caption_lengths : List ℕ)
    (P P1 : PredBuf) (caps : List (List ℕ)) (dl : List ℤ) (si : List ℕ)
    (hres : _forward_with_teacher_forcing expf u d training image_features
      object_features relation_features object_mask relation_mask pair_ids
      encoded_captions caption_lengths = Except.ok (P, P1, caps, dl, si)) :
    dl = (indexSelect (sortIndices caption_lengths) caption_lengths 0).map
      (fun l => Int.ofNat l - 1) ∧
    ∀ i ti : ℕ, dl.getD i 0 ≤ (ti : ℤ) →
      P i ti = zeroV d.vocab_size ∧ P1 i ti = zeroV d.vocab_size := by
  simp only [_forward_with_teacher_forcing] at hres
  split at hres
  · simp at hres
  · cases hres
    refine ⟨rfl, ?_⟩
    intro i ti hle
    have hbs : batchSizeAt ((indexSelect (sortIndices caption_lengths) caption_lengths 0).map
        (fun l => Int.ofNat l - 1)) ti ≤ i :=
      desc_count_le (ti : ℤ) _ (dl_pairwise caption_lengths) i hle
    exact ⟨((decodeLoopTF_preserves _ _ _ _ i ti hbs).1).trans rfl,
      ((decodeLoopTF_preserves _ _ _ _ i ti hbs).2).trans rfl⟩

-- the free-running path: same decode lengths and the same zero-row
-- preservation
theorem nt_path_invariants (expf : ℚ → ℚ) (u : ℕ → ℚ)
    (d : cascade_sg_first_contextGAT_Decoder) (training : Bool)
    (image_features object_features relation_features : List (List QVec))
    (object_mask relation_mask : List (List Bool))
    (pair_ids : List (List (ℕ × ℕ)))
    (encoded_captions : List (List ℕ)) (caption_lengths : List ℕ)
    (P P1 : PredBuf) (caps : List (List ℕ)) (dl : List ℤ) (si : List ℕ)
    (hres : _forward_no_teacher_force expf u d training image_features
      object_features relation_features object_mask relation_mask pair_ids
      encoded_captions caption_lengths = Except.ok (P, P1, caps, dl, si)) :
    dl = (indexSelect (sortIndices caption_lengths) caption_lengths 0).map
      (fun l => Int.ofNat l - 1) ∧
    ∀ i ti : ℕ, dl.getD i 0 ≤ (ti : ℤ) →
      P i ti = zeroV d.vocab_size ∧ P1 i ti = zeroV d.vocab_size := by
  simp only [_forward_no_teacher_force] at hres
  split at hres
  · simp at hres
  · cases hres
    refine ⟨rfl, ?_⟩
    intro i ti hle
    have hbs : batchSizeAt ((indexSelect (sortIndices caption_lengths) caption_lengths 0).map
        (fun l => Int.ofNat l - 1)) ti ≤ i :=
      desc_count_le (ti : ℤ) _ (dl_pairwise caption_lengths) i hle
    exact ⟨((decodeLoopNT_preserves _ _ _ i ti hbs).1).trans rfl,
      ((decodeLoopNT_preserves _ _ _ i ti hbs).2).trans rfl⟩

/-- C3: for every decoder forward call that returns (either decode policy,
either training mode): the decode length of each sample equals its sorted
caption length minus one; the active batch size at timestep t equals the
count of samples with decode length greater than t and is non-increasing as
t increases; and for every sample i and timestep ti with decode length at
most ti, the timestep-ti rows of both prediction buffers remain at their
zero initialisation. -/
theorem decoder_core_invariants (expf : ℚ → ℚ) (u : ℕ → ℚ)
    (d : cascade_sg_first_contextGAT_Decoder) (training : Bool)
    (image_features object_features relation_features : List (List QVec))
    (object_mask relation_mask : List (List Bool))
    (pair_ids : List (List (ℕ × ℕ)))
    (encoded_captions : List (List ℕ)) (caption_lengths : List ℕ)
    (i ti t t2 : ℕ)
    (hok : (cascade_sg_first_contextGAT_Decoder.forward expf u d training
      image_features object_features relation_features object_mask relation_mask
      pair_ids encoded_captions caption_lengths).isOk = true)
    (htt : t ≤ t2)
    (hle : (decDecodeLengths (cascade_sg_first_contextGAT_Decoder.forward expf u d
      training image_features object_features relation_features object_mask
      relation_mask pair_ids encoded_captions caption_lengths)).getD i 0 ≤ (ti : ℤ)) :
    decDecodeLengths (cascade_sg_first_contextGAT_Decoder.forward expf u d training
      image_features object_features relation_features object_mask relation_mask
      pair_ids encoded_captions caption_lengths) =
      (indexSelect (sortIndices caption_lengths) caption_lengths 0).map
        (fun l => Int.ofNat l - 1) ∧
    batchSizeAt (decDecodeLengths (cascade_sg_first_contextGAT_Decoder.forward expf u d
      training image_features object_features relation_features object_mask
      relation_mask pair_ids encoded_captions caption_lengths)) t =
      (decDecodeLengths (cascade_sg_first_contextGAT_Decoder.forward expf u d training
        image_features object_features relation_features object_mask relation_mask
        pair_ids encoded_captions caption_lengths)).countP
          (fun l => decide ((t : ℤ) < l)) ∧
    batchSizeAt (decDecodeLengths (cascade_sg_first_contextGAT_Decoder.forward expf u d
      training image_features object_features relation_features object_mask
      relation_mask pair_ids encoded_captions caption_lengths)) t2 ≤
      batchSizeAt (decDecodeLengths (cascade_sg_first_contextGAT_Decoder.forward expf u d
        training image_features object_features relation_features object_mask
        relation_mask pair_ids encoded_captions caption_lengths)) t ∧
    decPredictions (cascade_sg_first_contextGAT_Decoder.forward expf u d training
      image_features object_features relation_features object_mask relation_mask
      pair_ids encoded_captions caption_lengths) i ti = zeroV d.vocab_size ∧
    decPredictions1 (cascade_sg_first_contextGAT_Decoder.forward expf u d training
      image_features object_features relation_features object_mask relation_mask
      pair_ids encoded_captions caption_lengths) i ti = zeroV d.vocab_size := by
  unfold cascade_sg_first_contextGAT_Decoder.forward at hok hle ⊢
  cases htf : d.teacher_force with
  | true =>
    rw [htf] at hok hle
    rw [if_pos (Eq.refl true)] at hok hle ⊢
    cases hres2 : _forward_with_teacher_forcing expf u d training image_features
      object_features relation_features object_mask relation_mask pair_ids
      encoded_captions caption_lengths with
    | error e =>
      try rw [hres2] at hok
      simp [Except.isOk, Except.toBool] at hok
    | ok r =>
      obtain ⟨P, P1, caps, dl, si⟩ := r
      try rw [hres2] at hle
      try rw [hres2]
      simp only [decDecodeLengths, decPredictions, decPredictions1] at hle ⊢
      have hmain := tf_path_invariants expf u d training image_features
        object_features relation_features object_mask relation_mask pair_ids
        encoded_captions caption_lengths P P1 caps dl si hres2
      exact ⟨hmain.1, rfl, batchSizeAt_antitone _ _ _ htt,
        (hmain.2 i ti hle).1, (hmain.2 i ti hle).2⟩
  | false =>
    rw [htf] at hok hle
    rw [if_neg (fun hc => Bool.false_ne_true hc)] at hok hle ⊢
    cases hres2 : _forward_no_teacher_force expf u d training image_features
      object_features relation_features object_mask relation_mask pair_ids
      encoded_captions caption_lengths with
    | error e =>
      try rw [hres2] at hok
      simp [Except.isOk, Except.toBool] at hok
    | ok r =>
      obtain ⟨P, P1, caps, dl, si⟩ := r
      try rw [hres2] at hle
      try rw [hres2]
      simp only [decDecodeLengths, decPredictions, decPredictions1] at hle ⊢
      have hmain := nt_path_invariants expf u d training image_features
        object_features relation_features object_mask relation_mask pair_ids
        encoded_captions caption_lengths P P1 caps dl si hres2
      exact ⟨hmain.1, rfl, batchSizeAt_antitone _ _ _ htt,
        (hmain.2 i ti hle).1, (hmain.2 i ti hle).2⟩

-- fixed concrete decoder instance used by witnesses: teacher forcing, all
-- learned cells constant, vocabulary of size one
def decWitness : cascade_sg_first_contextGAT_Decoder :=
  { attention_dim := 1, embed_dim := 1, decoder_dim := 1, vocab_size := 1,
    features_dim := 1, graph_features_dim := 1, augmentation := 0,
    edge_drop_prob := 0, node_drop_prob := 0, attr_drop_prob := 0,
    word_map_start := 0, teacher_force := true,
    context_gat := cgatWitnessCG,
    cascade1_attention := attnWitnessA,
    cascade2_attention := attnWitnessA,
    embedding := fun _ => [0],
    top_down_attention := fun _ _ => ([0], [0]),
    language_model := fun _ _ => ([0], [0]),
    fc1 := fun _ => [0],
    fc := fun _ => [0],
    dropout := fun v => v }

/-- Witness for decoder_core_invariants at a concrete two-sample call with
caption lengths [2, 3] (decode lengths [2, 1] after sorting): sample 1 has
decode length 1, so its timestep-1 rows stay zero. -/
theorem decoder_core_invariants_witness :
    decDecodeLengths (cascade_sg_first_contextGAT_Decoder.forward (fun _ => 1)
      (fun _ => 0) decWitness false [[[1]], [[1]]] [[[1]], [[1]]] [[[1]], [[1]]]
      [[true], [true]] [[false], [false]] [[(0, 0)], [(0, 0)]]
      [[1, 2], [3, 4, 5]] [2, 3]) =
      (indexSelect (sortIndices [2, 3]) [2, 3] 0).map (fun l => Int.ofNat l - 1) ∧
    batchSizeAt (decDecodeLengths (cascade_sg_first_contextGAT_Decoder.forward
      (fun _ => 1) (fun _ => 0) decWitness false [[[1]], [[1]]] [[[1]], [[1]]]
      [[[1]], [[1]]] [[true], [true]] [[false], [false]] [[(0, 0)], [(0, 0)]]
      [[1, 2], [3, 4, 5]] [2, 3])) 0 =
      (decDecodeLengths (cascade_sg_first_contextGAT_Decoder.forward (fun _ => 1)
        (fun _ => 0) decWitness false [[[1]], [[1]]] [[[1]], [[1]]] [[[1]], [[1]]]
        [[true], [true]] [[false], [false]] [[(0, 0)], [(0, 0)]]
        [[1, 2], [3, 4, 5]] [2, 3])).countP (fun l => decide ((0 : ℤ) < l)) ∧
    batchSizeAt (decDecodeLengths (cascade_sg_first_contextGAT_Decoder.forward
      (fun _ => 1) (fun _ => 0) decWitness false [[[1]], [[1]]] [[[1]], [[1]]]
      [[[1]], [[1]]] [[true], [true]] [[false], [false]] [[(0, 0)], [(0, 0)]]
      [[1, 2], [3, 4, 5]] [2, 3])) 1 ≤
      batchSizeAt (decDecodeLengths (cascade_sg_first_contextGAT_Decoder.forward
        (fun _ => 1) (fun _ => 0) decWitness false [[[1]], [[1]]] [[[1]], [[1]]]
        [[[1]], [[1]]] [[true], [true]] [[false], [false]] [[(0, 0)], [(0, 0)]]
        [[1, 2], [3, 4, 5]] [2, 3])) 0 ∧
    decPredictions (cascade_sg_first_contextGAT_Decoder.forward (fun _ => 1)
      (fun _ => 0) decWitness false [[[1]], [[1]]] [[[1]], [[1]]] [[[1]], [[1]]]
      [[true], [true]] [[false], [false]] [[(0, 0)], [(0, 0)]]
      [[1, 2], [3, 4, 5]] [2, 3]) 1 1 = zeroV decWitness.vocab_size ∧
    decPredictions1 (cascade_sg_first_contextGAT_Decoder.forward (fun _ => 1)
      (fun _ => 0) decWitness false [[[1]], [[1]]] [[[1]], [[1]]] [[[1]], [[1]]]
      [[true], [true]] [[false], [false]] [[(0, 0)], [(0, 0)]]
      [[1, 2], [3, 4, 5]] [2, 3]) 1 1 = zeroV decWitness.vocab_size :=
  decoder_core_invariants (fun _ => 1) (fun _ => 0) decWitness false
    [[[1]], [[1]]] [[[1]], [[1]]] [[[1]], [[1]]] [[true], [true]]
    [[false], [false]] [[(0, 0)], [(0, 0)]] [[1, 2], [3, 4, 5]] [2, 3]
    1 1 0 1 (by rfl) (by decide) (by decide)

/-- C1 (code bug): on a concrete two-sample call with caption lengths
[2, 3], the sort permutation is [1, 0], and the teacher-forced path returns
the captions reordered by it; but the free-running path
(_forward_no_teacher_force) returns the encoded captions in their original
order, because it never applies sort_ind to encoded_captions (its docstring
nevertheless promises sorted encoded captions), so the third element of its
returned tuple is not the length-sorted captions. -/
theorem captions_not_sorted_in_free_running :
    decCaptions (cascade_sg_first_contextGAT_Decoder.forward (fun _ => 1)
      (fun _ => 0) { decWitness with teacher_force := false } false
      [[[1]], [[1]]] [[[1]], [[1]]] [[[1]], [[1]]] [[true], [true]]
      [[false], [false]] [[(0, 0)], [(0, 0)]] [[1, 2], [3, 4, 5]] [2, 3]) =
      [[1, 2], [3, 4, 5]] ∧
    decSortInd (cascade_sg_first_contextGAT_Decoder.forward (fun _ => 1)
      (fun _ => 0) { decWitness with teacher_force := false } false
      [[[1]], [[1]]] [[[1]], [[1]]] [[[1]], [[1]]] [[true], [true]]
      [[false], [false]] [[(0, 0)], [(0, 0)]] [[1, 2], [3, 4, 5]] [2, 3]) =
      [1, 0] ∧
    indexSelect [1, 0] [[1, 2], [3, 4, 5]] [] = [[3, 4, 5], [1, 2]] ∧
    ¬ ([[1, 2], [3, 4, 5]] : List (List ℕ)) = [[3, 4, 5], [1, 2]] ∧
    decCaptions (cascade_sg_first_contextGAT_Decoder.forward (fun _ => 1)
      (fun _ => 0) decWitness false [[[1]], [[1]]] [[[1]], [[1]]]
      [[[1]], [[1]]] [[true], [true]] [[false], [false]] [[(0, 0)], [(0, 0)]]
      [[1, 2], [3, 4, 5]] [2, 3]) = [[3, 4, 5], [1, 2]] :=
  ⟨by rfl, by rfl, by rfl, by decide, by rfl⟩
